import Mathlib

/-!
Verification of the column-resolution and cell-matching search engine of
`sheets_search.py` (dzieju/google-sheets).

Strings are modelled as lists of characters (`Str`).  Dynamically typed
Python cell values (string / int / float / None) are modelled by the closed
sum `PyVal`; a float is carried together with its Python `str()` rendering
(so the float literal `38960.0` is `PyVal.pfloat "38960.0"`), since only
that rendering is ever consumed by the code under verification.  Character
classes mirror the Python predicates on the character sets actually used by
the code: `isPyDigit` is the ASCII digit class of the regex class `\d`,
`isPySpace` covers the whitespace characters recognised by `str.split()` /
`str.strip()`, and `lowerChar` is `str.lower` on ASCII letters (all
identifiers appearing in the claims are ASCII).
-/

abbrev Str := List Char

def isPyDigit (c : Char) : Bool := 48 ≤ c.toNat && c.toNat ≤ 57

/-- Whitespace characters recognised by Python `str.split()` / `str.strip()`
(ASCII whitespace, the C1 control spaces 28-31, NEL 133, NBSP 160, OGHAM
5760, the EN-QUAD..HAIR-SPACE block 8192-8202, LINE/PARAGRAPH SEPARATOR
8232/8233, NARROW NBSP 8239, MMSP 8287 and IDEOGRAPHIC SPACE 12288),
expressed on codepoints. -/
def isPySpace (c : Char) : Bool :=
  c.toNat = 32 || c.toNat = 9 || c.toNat = 10 || c.toNat = 13 ||
  c.toNat = 11 || c.toNat = 12 || (28 ≤ c.toNat && c.toNat ≤ 31) ||
  c.toNat = 133 || c.toNat = 160 || c.toNat = 5760 ||
  (8192 ≤ c.toNat && c.toNat ≤ 8202) || c.toNat = 8232 || c.toNat = 8233 ||
  c.toNat = 8239 || c.toNat = 8287 || c.toNat = 12288

/-- Python `str.lower` restricted to the ASCII letters. -/
def lowerChar (c : Char) : Char :=
  if 65 ≤ c.toNat && c.toNat ≤ 90 then Char.ofNat (c.toNat + 32) else c

def lowerStr (s : Str) : Str := s.map lowerChar

/-- Python `str.strip()` (no argument): drop whitespace from both ends. -/
def pyStrip (s : Str) : Str :=
  (s.dropWhile isPySpace).reverse.dropWhile isPySpace |>.reverse

/-- Helper for `pyWords`: accumulates the current in-progress word
(reversed). -/
def pyWordsAux : Str → Str → List Str
  | [], acc => if acc.isEmpty then [] else [acc.reverse]
  | c :: t, acc =>
    if isPySpace c then
      if acc.isEmpty then pyWordsAux t [] else acc.reverse :: pyWordsAux t []
    else pyWordsAux t (c :: acc)

/-- Python `str.split()` (no argument): maximal runs of non-whitespace. -/
def pyWords (s : Str) : List Str := pyWordsAux s []

/-- Python substring test `pat in hay`. -/
def containsSub (hay pat : Str) : Bool :=
  List.isPrefixOf pat hay ||
    (match hay with
     | [] => false
     | _ :: t => containsSub t pat)

/-- Python value as it can appear in a sheet cell / header cell. -/
inductive PyVal where
  | pnone : PyVal
  | pstr : Str → PyVal
  | pint : Int → PyVal
  | pfloat : Str → PyVal
  deriving DecidableEq

/-- Python `str(v)`.  A float carries its `str()` rendering. -/
def pyStr : PyVal → Str
  | .pnone => ['N', 'o', 'n', 'e']
  | .pstr s => s
  | .pint n => (toString n).data
  | .pfloat r => r

/-- `normalize_number_string` (sheets_search.py lines 77-103): `None` gives
the empty string; otherwise stringify, drop NBSP and narrow NBSP, drop
ordinary spaces, replace comma by dot, and keep only digits, dot and
minus. -/
def normalize_number_string (value : PyVal) : Str :=
  match value with
  | .pnone => []
  | v =>
    let s := pyStr v
    let s := s.filter (fun c => !(c = '\u00a0' || c = '\u202f'))
    let s := s.filter (fun c => !(c = ' '))
    let s := s.map (fun c => if c = ',' then '.' else c)
    s.filter (fun c => isPyDigit c || c = '.' || c = '-')

/-- `joinSpace` is Python's `' '.join`. -/
def joinSpace : List Str → Str
  | [] => []
  | [w] => w
  | w :: ws => w ++ ' ' :: joinSpace ws

/-- `normalize_header_name` on a plain string: replace underscores by
spaces, collapse whitespace runs (via split and single-space join), strip
and lowercase. -/
def normalizeHeaderStr (s : Str) : Str :=
  let s1 := s.map (fun c => if c = '_' then ' ' else c)
  let s2 := joinSpace (pyWords s1)
  lowerStr (pyStrip s2)

/-- `normalize_header_name` (lines 214-235): `None` gives the empty string,
anything else is stringified and normalised. -/
def normalize_header_name (name : PyVal) : Str :=
  match name with
  | .pnone => []
  | v => normalizeHeaderStr (pyStr v)

example : normalize_number_string (.pstr "38 960".data) = "38960".data := by decide
example : normalize_number_string (.pstr "38,960".data) = "38.960".data := by decide
example : normalize_number_string (.pfloat "38960.0".data) = "38960.0".data := by decide
example : normalizeHeaderStr "Numer_Zlecenia".data = "numer zlecenia".data := by decide
example : containsSub "abcd".data "bc".data = true := by decide
example : containsSub "abcd".data "bd".data = false := by decide

/-! ### Header synonym vocabularies and special values (lines 106-114) -/

def ZLECENIE_HEADERS : List Str :=
  ["numer zlecenia".data, "nr zlecenia".data, "nr_zlecenia".data,
   "zlecenie".data, "nr z".data]

def STAWKA_HEADERS : List Str :=
  ["stawka".data, "stawka zł".data, "stawka_pln".data,
   "stawka netto".data, "stawka_brutto".data]

def COLUMN_BLACKLIST : List Str :=
  ["transport".data, "uwagi".data, "komentarz".data, "komentarze".data,
   "notatki".data, "opis".data, "uwaga".data]

def ALL_COLUMNS_VALUES : List Str := ["all".data, "wszystkie".data]

/-- `is_search_all_columns` (lines 257-269). -/
def is_search_all_columns (searchColumnName : Option Str) : Bool :=
  match searchColumnName with
  | none => false
  | some n => ALL_COLUMNS_VALUES.contains (normalizeHeaderStr n)

/-! ### Numeric token extraction (lines 238-254)

`extract_numeric_tokens` returns the leftmost, non-overlapping matches of
the regular expression `\d+(?:[.,]\d+)?` in the input: a maximal digit
run, optionally extended by a single dot or comma followed by another
digit run.  `entGo` is the scanning automaton; its state is `none` when
outside a token and `some (tok, usedSep)` when a token (reversed in
`tok`) is being built, `usedSep` recording whether the single allowed
decimal separator has already been consumed.  In the branch where the
lookahead character `d` after a separator is not a digit, the token ends
and scanning resumes at `d`; since `d` is not a digit it is skipped, so
the recursion continues directly on `t2`. -/

def entGo : Str → Option (Str × Bool) → List Str
  | [], none => []
  | [], some (tok, _) => [tok.reverse]
  | c :: t, none =>
    if isPyDigit c then entGo t (some ([c], false)) else entGo t none
  | [c], some (tok, usedSep) =>
    if isPyDigit c then entGo [] (some (c :: tok, usedSep))
    else [tok.reverse]
  | c :: d :: t2, some (tok, usedSep) =>
    if isPyDigit c then entGo (d :: t2) (some (c :: tok, usedSep))
    else if !usedSep && (c = '.' || c = ',') then
      (if isPyDigit d then entGo t2 (some (d :: c :: tok, true))
       else tok.reverse :: entGo t2 none)
    else tok.reverse :: entGo (d :: t2) none

def extract_numeric_tokens (l : Str) : List Str := entGo l none

example : extract_numeric_tokens "https://example.com/order/38960".data
    = ["38960".data] := by decide
example : extract_numeric_tokens "007".data = ["007".data] := by decide
example : extract_numeric_tokens "1.5x2,75".data = ["1.5".data, "2,75".data] := by decide
example : extract_numeric_tokens "1.2.3".data = ["1.2".data, "3".data] := by decide
example : extract_numeric_tokens "9.".data = ["9".data] := by decide
example : extract_numeric_tokens ".5,x12,34y".data = ["5".data, "12,34".data] := by decide

/-! ### Ignore patterns (lines 310-446)

`matches_ignore_pattern` and `matches_ignore_value` share the same
per-pattern loop body; they differ only in how the candidate is
normalised (the header variant goes through `normalize_header_name`, the
value variant only strips and lowercases).  `wildcardStep` is the loop
body for one pattern, `wildcardLoop` the loop over the list. -/

def wildcardStep (normCand : Str) (pat0 : Str) : Bool :=
  match lowerStr (pyStrip pat0) with
  | [] => false
  | c :: rest =>
    if c = '*' && (c :: rest).getLast? = some '*' then
      let term := rest.dropLast
      !term.isEmpty && containsSub normCand term
    else if c = '*' then
      !rest.isEmpty && List.isSuffixOf rest normCand
    else if (c :: rest).getLast? = some '*' then
      let term := (c :: rest).dropLast
      !term.isEmpty && List.isPrefixOf term normCand
    else containsSub normCand (c :: rest)

def wildcardLoop (normCand : Str) (patterns : List Str) : Bool :=
  patterns.any (wildcardStep normCand)

/-- `matches_ignore_pattern` (lines 310-376): candidate is normalised with
`normalize_header_name`. -/
def matches_ignore_pattern (headerName : Str) (ignorePatterns : List Str) : Bool :=
  if ignorePatterns.isEmpty then false
  else
    let n := normalizeHeaderStr headerName
    if n.isEmpty then false else wildcardLoop n ignorePatterns

/-- `matches_ignore_value` (lines 379-446): candidate is only stripped and
lowercased. -/
def matches_ignore_value (cellValue : Str) (ignorePatterns : List Str) : Bool :=
  if ignorePatterns.isEmpty then false
  else if cellValue.isEmpty then false
  else
    let n := lowerStr (pyStrip cellValue)
    if n.isEmpty then false else wildcardLoop n ignorePatterns

example : matches_ignore_pattern "temporary".data ["temp*".data] = true := by decide
example : matches_ignore_pattern "debug_mode".data ["*debug*".data] = true := by decide
example : matches_ignore_pattern "test_column".data ["test".data] = true := by decide
example : matches_ignore_pattern "production".data ["temp*".data, "test*".data] = false := by
  decide
example : matches_ignore_value "https://example.com".data ["https".data] = true := by decide
example : matches_ignore_value "HTTP://EXAMPLE.COM".data ["https".data] = false := by decide
example : matches_ignore_value "test_value".data ["test*".data] = true := by decide
example : matches_ignore_value "x".data ["*".data] = false := by decide

/-! ### Header and column resolution (lines 449-765) -/

/-- `find_column_index_by_name` (lines 612-635): first index whose
normalised header equals the normalised name; `None` cells are skipped. -/
def find_column_index_by_name (headerRow : List PyVal) (columnName : Str) : Option Nat :=
  if headerRow.isEmpty || columnName.isEmpty then none
  else
    let normTarget := normalizeHeaderStr columnName
    (List.range headerRow.length).find? fun idx =>
      match headerRow[idx]? with
      | some .pnone => false
      | some cell => normalize_header_name cell = normTarget
      | none => false

/-- `find_all_column_indices_by_name` (lines 638-671): all indices whose
normalised header equals the normalised name, excluding (when the ignore
list is nonempty) headers matching an ignore pattern. -/
def find_all_column_indices_by_name (headerRow : List PyVal) (columnName : Str)
    (ignorePatterns : List Str) : List Nat :=
  if headerRow.isEmpty || columnName.isEmpty then []
  else
    let normTarget := normalizeHeaderStr columnName
    (List.range headerRow.length).filter fun idx =>
      match headerRow[idx]? with
      | some .pnone => false
      | some cell =>
        normalize_header_name cell = normTarget &&
          !(!ignorePatterns.isEmpty && matches_ignore_pattern (pyStr cell) ignorePatterns)
      | none => false

/-- Accumulator pass of `find_header_indices`: carries the first matching
zlecenie and stawka indices and the running index. -/
def findHeaderIndicesAux (headerRow : List PyVal) : Option Nat × Option Nat × Nat :=
  headerRow.foldl (fun acc cell =>
    match cell with
    | .pnone => (acc.1, acc.2.1, acc.2.2 + 1)
    | _ =>
      let cellLower := pyStrip (lowerStr (pyStr cell))
      let z := if acc.1 = none && ZLECENIE_HEADERS.any (containsSub cellLower) then
          some acc.2.2 else acc.1
      let s := if acc.2.1 = none && STAWKA_HEADERS.any (containsSub cellLower) then
          some acc.2.2 else acc.2.1
      (z, s, acc.2.2 + 1)) (none, none, 0)

/-- `find_header_indices` (lines 574-609): indices of the first header cell
containing a "numer zlecenia" synonym and of the first containing a
"stawka" synonym; cells are lowercased then stripped. -/
def find_header_indices (headerRow : List PyVal) : Option Nat × Option Nat :=
  ((findHeaderIndicesAux headerRow).1, (findHeaderIndicesAux headerRow).2.1)

/-- `find_stawka_column_index` (lines 674-695): first index whose
normalised header contains a "stawka" synonym. -/
def find_stawka_column_index (headerRow : List PyVal) : Option Nat :=
  (List.range headerRow.length).find? fun idx =>
    match headerRow[idx]? with
    | some .pnone => false
    | some cell => STAWKA_HEADERS.any (containsSub (normalize_header_name cell))
    | none => false

/-- `is_likely_header_row` (lines 698-714): at least two cells whose
stripped text is nonempty and not made purely of digits, dots, commas,
minus signs and whitespace. -/
def is_likely_header_row (row : List PyVal) : Bool :=
  let textCells := row.foldl (fun n cell =>
    match cell with
    | .pnone => n
    | _ =>
      let s := pyStrip (pyStr cell)
      if !s.isEmpty &&
          !(s.all fun c => isPyDigit c || c = '.' || c = ',' || c = '-' || isPySpace c)
        then n + 1 else n) 0
  2 ≤ textCells

/-- `get_cell_value_safe` (lines 717-731): value at an index, stringified;
`none` when out of range or the cell is `None`. -/
def get_cell_value_safe (row : List PyVal) (idx : Nat) : Option Str :=
  match row[idx]? with
  | none => none
  | some .pnone => none
  | some v => some (pyStr v)

/-- `is_column_blacklisted` (lines 734-765): the header cell at the index
(lowercased, stripped) contains a blacklisted word. -/
def is_column_blacklisted (headerRow : Option (List PyVal)) (colIdx : Nat) : Bool :=
  match headerRow with
  | none => false
  | some hr =>
    match hr[colIdx]? with
    | none => false
    | some .pnone => false
    | some v => COLUMN_BLACKLIST.any (containsSub (pyStrip (lowerStr (pyStr v))))

example : find_all_column_indices_by_name
    [.pstr "Zlecenie".data, .pstr "Stawka".data, .pstr "Zlecenie".data,
     .pstr "Uwagi".data, .pstr "zlecenie".data] "Zlecenie".data [] = [0, 2, 4] := by decide
example : find_all_column_indices_by_name
    [.pstr "X".data, .pstr "X_old".data] "X".data ["*old".data] = [0] := by decide

/-! ### Multi-row headers and header-row detection (lines 117-211, 491-571) -/

/-- `combine_header_values` (lines 162-211): per column, space-join the
stripped, nonempty cell values of the designated header rows, then
normalise. -/
def combine_header_values (values : List (List PyVal)) (headerRowIndices : List Nat) :
    List Str :=
  if values.isEmpty || headerRowIndices.isEmpty then []
  else
    let maxCols := headerRowIndices.foldl (fun m ri =>
      match values[ri]? with
      | some row => max m row.length
      | none => m) 0
    if maxCols = 0 then []
    else (List.range maxCols).map fun colIdx =>
      let parts := headerRowIndices.filterMap fun ri =>
        match values[ri]? with
        | none => none
        | some row =>
          match row[colIdx]? with
          | none => none
          | some .pnone => none
          | some v =>
            let cv := pyStrip (pyStr v)
            if cv.isEmpty then none else some cv
      normalizeHeaderStr (List.intercalate [' '] parts)

/-- Auto-detection phase of `detect_header_row` (lines 531-571): row 0 is
used when it looks like a header, preferring row 1 only when row 0 lacks
the requested column and row 1 both looks like a header and has it. -/
def detectHeaderAuto (values : List (List PyVal)) (searchColumnName : Option Str) :
    Option (List PyVal) × Nat :=
  let row1 := values.headD []
  let row2 := (values[1]?).getD []
  let targetColumn : Option Str :=
    match searchColumnName with
    | some n => if is_search_all_columns (some n) then none else some n
    | none => none
  let checkRowHasTarget := fun (row : List PyVal) =>
    if row.isEmpty then false
    else
      match targetColumn with
      | some t =>
        if t.isEmpty then (find_header_indices row).1.isSome
        else (find_column_index_by_name row t).isSome
      | none => (find_header_indices row).1.isSome
  if is_likely_header_row row1 then
    if checkRowHasTarget row1 then (some row1, 1)
    else if is_likely_header_row row2 && checkRowHasTarget row2 then (some row2, 2)
    else (some row1, 1)
  else if is_likely_header_row row2 then (some row2, 2)
  else (none, 0)

/-- `detect_header_row` (lines 491-571), reduced to the pair the callers
consume: the header row (combined multi-row headers become plain strings)
and the index of the first data row. -/
def detect_header_row (values : List (List PyVal)) (searchColumnName : Option Str)
    (headerRowIndices : Option (List Nat)) : Option (List PyVal) × Nat :=
  if values.isEmpty then (none, 0)
  else
    match headerRowIndices with
    | some idxs =>
      if !idxs.isEmpty then
        let combined := combine_header_values values idxs
        if !combined.isEmpty then (some (combined.map .pstr), idxs.foldl max 0 + 1)
        else detectHeaderAuto values searchColumnName
      else detectHeaderAuto values searchColumnName
    | none => detectHeaderAuto values searchColumnName

/-! ### Cell addressing (lines 45-74) -/

/-- Core loop of `col_index_to_a1`; the first argument is fuel bounding the
number of iterations of the Python while loop.  Each iteration replaces
`n` by `(n-1)/26`, which strictly decreases, so any fuel of at least `n`
iterations computes the fixpoint. -/
def a1Core : Nat → Nat → Str
  | 0, _ => []
  | fuel + 1, n =>
    if n = 0 then []
    else a1Core fuel ((n - 1) / 26) ++ [Char.ofNat (65 + (n - 1) % 26)]

/-- `col_index_to_a1` (lines 45-62) on a valid 0-based index. -/
def col_index_to_a1 (n : Nat) : Str := a1Core (n + 2) (n + 1)

/-- `cell_address` (lines 65-74) on valid 0-based indices. -/
def cell_address (rowIdx colIdx : Nat) : Str :=
  col_index_to_a1 colIdx ++ (toString (rowIdx + 1)).data

example : cell_address 0 0 = "A1".data := by decide
example : cell_address 9 27 = "AB10".data := by decide

/-! ### Per-cell matching: `check_match` (lines 1128-1167)

The compiled regular expression is abstracted as a search function
`Str → Bool`; `re.compile` is abstracted as an oracle that either returns
such a function or fails (raises `re.error`).  The precomputed
`pattern_has_digits` and `norm_pat` of lines 1074-1076 are functions of
the pattern and are recomputed in place. -/

def hasUrlMarker (lowCell : Str) : Bool :=
  containsSub lowCell "http://".data || containsSub lowCell "https://".data ||
    containsSub lowCell "www.".data

def check_match (regex : Bool) (matcher : Option (Str → Bool)) (caseSensitive : Bool)
    (pattern : Str) (cellText : Str) : Bool :=
  let patternHasDigits := pattern.any isPyDigit
  let normPat := if patternHasDigits then normalize_number_string (.pstr pattern) else []
  let m1 :=
    if regex then
      match matcher with
      | some m => m cellText
      | none => false
    else
      !pattern.isEmpty && !cellText.isEmpty &&
        (if caseSensitive then containsSub cellText pattern
         else containsSub (lowerStr cellText) (lowerStr pattern))
  let m2 :=
    if m1 then true
    else if patternHasDigits && cellText.any isPyDigit then
      !normPat.isEmpty && containsSub (normalize_number_string (.pstr cellText)) normPat
    else false
  if m2 then true
  else if patternHasDigits && hasUrlMarker (lowerStr cellText) then
    (extract_numeric_tokens cellText).any fun tok =>
      !normPat.isEmpty && containsSub (normalize_number_string (.pstr tok)) normPat
  else false

example : check_match false none false "38960".data "38 960".data = true := by decide
example : check_match false none false "38960".data
    "https://x.com/order/38960".data = true := by decide
example : check_match false none false "38960".data "38,960".data = false := by decide

/-! ### The scanner (lines 986-1348)

The scan is a Python generator pipeline; its execution for a fixed input
is deterministic, so the cooperative cancellation flag is modelled as a
function from the index of the check to the value read by that check: the
i-th `stop_event.is_set()` call performed by the pipeline reads `flag i`.
A run with `stop_event = None` is the run with the constantly false flag.
Collaborator calls (metadata and value fetches) are recorded in a trace.

Generator composition is fused: `search_across_spreadsheets` performs one
flag check after pulling each record from the inner generator (lines
1340-1344) and returns, dropping that record, when the flag is set; the
parameter `perRec` of the row loop records whether the scan is being
driven by that consumer (`true` inside `search_across_spreadsheets`,
`false` when `search_in_sheet` is consumed directly).  A `return` of an
inner generator on a set flag merely ends that generator (`hardStop =
false`), while the consumer check of `search_across_spreadsheets` ends
the whole pipeline (`hardStop = true`).  An `re.error` escaping
`re.compile` (line 1071) is recorded as `err = true`; it propagates out
of `search_in_sheet` and `search_in_spreadsheet` and is caught by the
try/except of `search_across_spreadsheets` (lines 1327-1348). -/

structure MatchRec where
  spreadsheetId : Str
  spreadsheetName : Str
  sheetName : Str
  cell : Str
  searchedValue : Str
  stawka : Str
  deriving DecidableEq

inductive ApiCall where
  | getMeta : Str → ApiCall
  | getValues : Str → Str → ApiCall
  deriving DecidableEq

structure ScanOut where
  recs : List MatchRec
  k : Nat
  calls : List ApiCall
  hardStop : Bool
  err : Bool
  deriving DecidableEq

/-- `get_stawka_for_row` (lines 1169-1178). -/
def get_stawka_for_row (headerRow : Option (List PyVal)) (stawkaIdx : Option Nat)
    (row : List PyVal) (matchColIdx : Nat) : Str :=
  match stawkaIdx with
  | some si => (get_cell_value_safe row si).getD []
  | none =>
    if is_column_blacklisted headerRow (matchColIdx + 1) then []
    else (get_cell_value_safe row (matchColIdx + 1)).getD []

/-- Records produced by one data row in ALL-columns mode (lines 1189-1218):
ignored columns are skipped, matched cells are suppressed when their value
matches an ignore pattern. -/
def rowRecsAll (ssId ssName sheetName : Str) (headerRow : Option (List PyVal))
    (stawkaIdx : Option Nat) (ignorePatterns : List Str) (regex : Bool)
    (matcher : Option (Str → Bool)) (caseSensitive : Bool) (pattern : Str)
    (rIdx : Nat) (row : List PyVal) : List MatchRec :=
  (List.range row.length).filterMap fun cIdx =>
    let ignoredCol :=
      match headerRow with
      | some hr =>
        match hr[cIdx]? with
        | some hcell =>
          !ignorePatterns.isEmpty && matches_ignore_pattern (pyStr hcell) ignorePatterns
        | none => false
      | none => false
    if ignoredCol then none
    else
      let cellText :=
        match row[cIdx]? with
        | some .pnone => []
        | some v => pyStr v
        | none => []
      if check_match regex matcher caseSensitive pattern cellText then
        if !ignorePatterns.isEmpty && matches_ignore_value cellText ignorePatterns then none
        else some ⟨ssId, ssName, sheetName, cell_address rIdx cIdx, cellText,
          get_stawka_for_row headerRow stawkaIdx row cIdx⟩
      else none

/-- Records produced by one data row in named-column mode (lines 1233-1255):
one candidate per resolved target column. -/
def rowRecsNamed (ssId ssName sheetName : Str) (headerRow : Option (List PyVal))
    (stawkaIdx : Option Nat) (ignorePatterns : List Str) (regex : Bool)
    (matcher : Option (Str → Bool)) (caseSensitive : Bool) (pattern : Str)
    (targetCols : List Nat) (rIdx : Nat) (row : List PyVal) : List MatchRec :=
  targetCols.filterMap fun tIdx =>
    match get_cell_value_safe row tIdx with
    | none => none
    | some cellValue =>
      if check_match regex matcher caseSensitive pattern cellValue then
        if !ignorePatterns.isEmpty && matches_ignore_value cellValue ignorePatterns then none
        else some ⟨ssId, ssName, sheetName, cell_address rIdx tIdx, cellValue,
          get_stawka_for_row headerRow stawkaIdx row tIdx⟩
      else none

/-- The consumer-side per-record check of `search_across_spreadsheets`
(lines 1340-1344): one flag check per pulled record, the record being
dropped (and the pipeline ended) when the flag is read as set. -/
def emitLoop (flag : Nat → Bool) (k : Nat) : List MatchRec → List MatchRec × Nat × Bool
  | [] => ([], k, false)
  | r :: rest =>
    if flag k then ([], k + 1, true)
    else
      let p := emitLoop flag (k + 1) rest
      (r :: p.1, p.2.1, p.2.2)

/-- The data-row loop shared by both modes (lines 1182-1259): one flag
check at the top of each row, then the row's records, each passed through
the consumer check when `perRec` is set. -/
def scanRows (perRec : Bool) (flag : Nat → Bool) (k : Nat)
    (rowRecs : Nat → List PyVal → List MatchRec) (rIdx : Nat) :
    List (List PyVal) → List MatchRec × Nat × Bool
  | [] => ([], k, false)
  | row :: rest =>
    if flag k then ([], k + 1, false)
    else
      let rs := rowRecs rIdx row
      let e := if perRec then emitLoop flag (k + 1) rs else (rs, k + 1, false)
      if e.2.2 then e
      else
        let p := scanRows perRec flag e.2.1 rowRecs (rIdx + 1) rest
        (e.1 ++ p.1, p.2.1, p.2.2)

/-- `search_in_sheet` (lines 986-1259) for a caller that supplies the
spreadsheet name (the path taken from `search_in_spreadsheet`).  The
value grid fetched at lines 1080-1089 is the `values` argument and its
fetch is recorded in the call trace. -/
def search_in_sheet (perRec : Bool) (flag : Nat → Bool) (k : Nat)
    (rxCompile : Str → Bool → Except Unit (Str → Bool))
    (ssId ssName sheetName : Str) (values : List (List PyVal))
    (pattern : Str) (regex caseSensitive : Bool) (searchColumnName : Option Str)
    (ignorePatterns : List Str) (headerRowIndices : Option (List Nat)) : ScanOut :=
  if flag k then ⟨[], k + 1, [], false, false⟩
  else
    let k1 := k + 1
    match (if regex then (rxCompile pattern caseSensitive).map some
           else .ok none : Except Unit (Option (Str → Bool))) with
    | .error _ => ⟨[], k1, [], false, true⟩
    | .ok matcher =>
      let calls := [ApiCall.getValues ssId sheetName]
      if values.isEmpty then ⟨[], k1, calls, false, false⟩
      else
        let hs := detect_header_row values searchColumnName headerRowIndices
        let headerRow := hs.1
        let startRow := hs.2
        let stawkaIdx :=
          match headerRow with
          | some hr => find_stawka_column_index hr
          | none => none
        if is_search_all_columns searchColumnName then
          let p := scanRows perRec flag k1
            (rowRecsAll ssId ssName sheetName headerRow stawkaIdx ignorePatterns
              regex matcher caseSensitive pattern) startRow (values.drop startRow)
          ⟨p.1, p.2.1, calls, p.2.2, false⟩
        else
          match searchColumnName with
          | some name =>
            let targetCols :=
              match headerRow with
              | some hr => find_all_column_indices_by_name hr name ignorePatterns
              | none => []
            if targetCols.isEmpty then ⟨[], k1, calls, false, false⟩
            else
              let p := scanRows perRec flag k1
                (rowRecsNamed ssId ssName sheetName headerRow stawkaIdx ignorePatterns
                  regex matcher caseSensitive pattern targetCols) startRow
                (values.drop startRow)
              ⟨p.1, p.2.1, calls, p.2.2, false⟩
          | none =>
            let zIdx :=
              match headerRow with
              | some hr => (find_header_indices hr).1
              | none => none
            match zIdx with
            | none => ⟨[], k1, calls, false, false⟩
            | some zi =>
              let ignored :=
                match headerRow with
                | some hr =>
                  !ignorePatterns.isEmpty &&
                    (match hr[zi]? with
                     | some hcell => matches_ignore_pattern (pyStr hcell) ignorePatterns
                     | none => false)
                | none => false
              if ignored then ⟨[], k1, calls, false, false⟩
              else
                let p := scanRows perRec flag k1
                  (rowRecsNamed ssId ssName sheetName headerRow stawkaIdx ignorePatterns
                    regex matcher caseSensitive pattern [zi]) startRow
                  (values.drop startRow)
                ⟨p.1, p.2.1, calls, p.2.2, false⟩

/-- The sheet loop of `search_in_spreadsheet` (lines 965-983): one flag
check before each sheet; an error raised by a sheet propagates. -/
def sheetsLoop (perRec : Bool) (flag : Nat → Bool) (k : Nat)
    (rxCompile : Str → Bool → Except Unit (Str → Bool)) (ssId ssName : Str)
    (valsOf : Str → List (List PyVal)) (pattern : Str) (regex caseSensitive : Bool)
    (searchColumnName : Option Str) (ignorePatterns : List Str)
    (headerRowIndices : Option (List Nat)) : List Str → ScanOut
  | [] => ⟨[], k, [], false, false⟩
  | sn :: rest =>
    if flag k then ⟨[], k + 1, [], false, false⟩
    else
      let o := search_in_sheet perRec flag (k + 1) rxCompile ssId ssName sn (valsOf sn)
        pattern regex caseSensitive searchColumnName ignorePatterns headerRowIndices
      if o.err || o.hardStop then o
      else
        let o2 := sheetsLoop perRec flag o.k rxCompile ssId ssName valsOf pattern regex
          caseSensitive searchColumnName ignorePatterns headerRowIndices rest
        ⟨o.recs ++ o2.recs, o2.k, o.calls ++ o2.calls, o2.hardStop, o2.err⟩

/-- `search_in_spreadsheet` (lines 908-983): metadata fetch (spreadsheet
title and sheet names), then the sheet loop. -/
def search_in_spreadsheet (perRec : Bool) (flag : Nat → Bool) (k : Nat)
    (rxCompile : Str → Bool → Except Unit (Str → Bool)) (ssId : Str)
    (metaOf : Str → Str × List Str) (valsOf : Str → Str → List (List PyVal))
    (pattern : Str) (regex caseSensitive : Bool) (searchColumnName : Option Str)
    (ignorePatterns : List Str) (headerRowIndices : Option (List Nat)) : ScanOut :=
  if flag k then ⟨[], k + 1, [], false, false⟩
  else
    let m := metaOf ssId
    let o := sheetsLoop perRec flag (k + 1) rxCompile ssId m.1 (valsOf ssId) pattern regex
      caseSensitive searchColumnName ignorePatterns headerRowIndices m.2
    ⟨o.recs, o.k, ApiCall.getMeta ssId :: o.calls, o.hardStop, o.err⟩

/-- The spreadsheet loop of `search_across_spreadsheets` (lines 1322-1348):
one flag check before each spreadsheet; an exception from one spreadsheet
is caught and the loop continues (records already yielded stay). -/
def ssLoop (flag : Nat → Bool) (k : Nat)
    (rxCompile : Str → Bool → Except Unit (Str → Bool))
    (metaOf : Str → Str × List Str) (valsOf : Str → Str → List (List PyVal))
    (pattern : Str) (regex caseSensitive : Bool) (searchColumnName : Option Str)
    (ignorePatterns : List Str) (headerRowIndices : Option (List Nat)) :
    List Str → List MatchRec × Nat × List ApiCall
  | [] => ([], k, [])
  | sid :: rest =>
    if flag k then ([], k + 1, [])
    else
      let o := search_in_spreadsheet true flag (k + 1) rxCompile sid metaOf valsOf pattern
        regex caseSensitive searchColumnName ignorePatterns headerRowIndices
      if o.hardStop then (o.recs, o.k, o.calls)
      else
        let p := ssLoop flag o.k rxCompile metaOf valsOf pattern regex caseSensitive
          searchColumnName ignorePatterns headerRowIndices rest
        (o.recs ++ p.1, p.2.1, o.calls ++ p.2.2)

/-- `search_across_spreadsheets` (lines 1262-1348) on an explicit list of
spreadsheet ids. -/
def search_across_spreadsheets (flag : Nat → Bool) (k : Nat)
    (rxCompile : Str → Bool → Except Unit (Str → Bool))
    (metaOf : Str → Str × List Str) (valsOf : Str → Str → List (List PyVal))
    (pattern : Str) (regex caseSensitive : Bool) (searchColumnName : Option Str)
    (ignorePatterns : List Str) (headerRowIndices : Option (List Nat))
    (ssIds : List Str) : List MatchRec × Nat × List ApiCall :=
  if flag k then ([], k + 1, [])
  else ssLoop flag (k + 1) rxCompile metaOf valsOf pattern regex caseSensitive
    searchColumnName ignorePatterns headerRowIndices ssIds

/-- The constantly false flag: a run with `stop_event = None`. -/
def noStop : Nat → Bool := fun _ => false

/-- A compile oracle whose patterns are all valid (the concrete search
function is irrelevant for non-regex runs). -/
def rxOk : Str → Bool → Except Unit (Str → Bool) := fun _ _ => .ok (fun _ => false)

/-- A compile oracle modelling `re.compile` raising `re.error` on a
malformed pattern such as `"["`. -/
def rxBad : Str → Bool → Except Unit (Str → Bool) := fun _ _ => .error ()

example :
    (search_in_sheet false noStop 0 rxOk "id".data "SS".data "Arkusz1".data
      [[.pstr "Numer zlecenia".data, .pstr "Stawka".data],
       [.pstr "38960".data, .pstr "280.00".data]]
      "38960".data false false none [] none).recs
    = [⟨"id".data, "SS".data, "Arkusz1".data, "A2".data, "38960".data,
        "280.00".data⟩] := by decide

/-! ### Duplicate detection: `find_duplicates_in_sheet` (lines 1351-1504)

The occurrence map is a Python dict from normalised value to the list of
`(1-based row, raw value)` occurrences; dict insertion order is modelled
by an association list extended at the back on first insertion.  The
call path modelled is the one with `stop_event = None` (the default), in
which no flag check is executed. -/

structure DupGroup where
  spreadsheetId : Str
  spreadsheetName : Str
  sheetName : Str
  columnName : Str
  value : Str
  count : Nat
  rows : List Nat
  sample_cells : List Str
  deriving DecidableEq

/-- Add one occurrence to the insertion-ordered occurrence map. -/
def addOcc (m : List (Str × List (Nat × Str))) (key : Str) (occ : Nat × Str) :
    List (Str × List (Nat × Str)) :=
  match m with
  | [] => [(key, [occ])]
  | (k0, os) :: rest =>
    if k0 = key then (k0, os ++ [occ]) :: rest
    else (k0, os) :: addOcc rest key occ

/-- Normalisation applied to one cell value (lines 1456-1464): numeric
normalisation when it leaves something, else strip and lowercase; raw
value when normalisation is off. -/
def dupNormalize (normalize : Bool) (cellValue : Str) : Str :=
  if normalize then
    let n := normalize_number_string (.pstr cellValue)
    if n.isEmpty then lowerStr (pyStrip cellValue) else n
  else cellValue

/-- The occurrence map of one physical column (lines 1436-1477): data rows
from `startRow`, skipping absent, `None` and blank cells; row numbers are
1-based. -/
def dupColOccs (values : List (List PyVal)) (startRow : Nat) (colIdx : Nat)
    (normalize : Bool) : List (Str × List (Nat × Str)) :=
  (List.enumFrom startRow (values.drop startRow)).foldl (fun m p =>
    match get_cell_value_safe p.2 colIdx with
    | none => m
    | some cv =>
      if (pyStrip cv).isEmpty then m
      else addOcc m (dupNormalize normalize cv) (p.1 + 1, cv)) []

/-- The per-header-row part of `find_duplicates_in_sheet`: column
resolution and per-column grouping (lines 1425-1504). -/
def find_duplicates_groups (ssId ssName sheetName : Str)
    (values : List (List PyVal)) (searchColumnName : Str) (normalize : Bool)
    (startRow : Nat) : Option (List PyVal) → List DupGroup
  | none => []
  | some hr =>
    let targetCols := find_all_column_indices_by_name hr searchColumnName []
    if targetCols.isEmpty then []
    else
      targetCols.flatMap fun colIdx =>
        let occs := dupColOccs values startRow colIdx normalize
        (occs.filter fun e => 1 < e.2.length).map fun e =>
          { spreadsheetId := ssId
            spreadsheetName := ssName
            sheetName := sheetName
            columnName :=
              if 1 < targetCols.length then
                searchColumnName ++ " (kolumna ".data ++ col_index_to_a1 colIdx ++ ")".data
              else searchColumnName
            value := (e.2.headD (0, [])).2
            count := e.2.length
            rows := e.2.map (fun o => o.1)
            sample_cells := (e.2.take 5).map (fun o => o.2) }

/-- `find_duplicates_in_sheet` (lines 1351-1504) with `stop_event = None`
and the spreadsheet name supplied by the caller. -/
def find_duplicates_in_sheet (ssId ssName sheetName : Str)
    (values : List (List PyVal)) (searchColumnName : Str) (normalize : Bool) :
    List DupGroup :=
  if values.isEmpty then []
  else
    find_duplicates_groups ssId ssName sheetName values searchColumnName normalize
      (detect_header_row values (some searchColumnName) none).2
      (detect_header_row values (some searchColumnName) none).1

example :
    find_duplicates_in_sheet "id".data "SS".data "Arkusz1".data
      [[.pstr "Zlecenie".data, .pstr "Uwagi".data],
       [.pstr "12345".data, .pstr "a".data],
       [.pstr "12345".data, .pstr "b".data],
       [.pstr "67890".data, .pstr "c".data],
       [.pstr "12345".data, .pstr "d".data]]
      "Zlecenie".data true
    = [{ spreadsheetId := "id".data, spreadsheetName := "SS".data,
         sheetName := "Arkusz1".data, columnName := "Zlecenie".data,
         value := "12345".data, count := 3, rows := [2, 3, 5],
         sample_cells := ["12345".data, "12345".data, "12345".data] }] := by decide

/-- Claim-side reading of C8: maximal digit runs of the input.  Accumulator
carries the current run, reversed. -/
def digitRunsAux : Str → Str → List Str
  | [], acc => if acc.isEmpty then [] else [acc.reverse]
  | c :: t, acc =>
    if isPyDigit c then digitRunsAux t (c :: acc)
    else if acc.isEmpty then digitRunsAux t []
    else acc.reverse :: digitRunsAux t []

/-- Claim-side reading of C8: strip leading zeros but keep a single zero
for all-zero runs. -/
def stripLeadingZeros (s : Str) : Str :=
  let r := s.dropWhile (fun c => c = '0')
  if r.isEmpty && !s.isEmpty then ['0'] else r

/-- The token extractor exactly as claim C8 words it: the maximal digit
runs, each with leading zeros stripped. -/
def extractNumericTokensClaim (l : Str) : List Str :=
  (digitRunsAux l []).map stripLeadingZeros

/-- A token has the shape matched by `\d+(?:[.,]\d+)?`: a nonempty digit
run, optionally followed by one dot or comma and a further nonempty digit
run. -/
def isTokenShaped (tok : Str) : Bool :=
  !(tok.takeWhile isPyDigit).isEmpty &&
    (match tok.dropWhile isPyDigit with
     | [] => true
     | sep :: b => (sep = '.' || sep = ',') && !b.isEmpty && b.all isPyDigit)

/-- Invariant of the scanning state of `entGo`. -/
def StInv : Option (Str × Bool) → Prop
  | none => True
  | some (tok, false) => tok ≠ [] ∧ tok.all isPyDigit
  | some (tok, true) =>
    ∃ a sep b, tok.reverse = a ++ sep :: b ∧ a ≠ [] ∧ a.all isPyDigit = true ∧
      (sep = '.' ∨ sep = ',') ∧ b ≠ [] ∧ b.all isPyDigit = true

/-! ### Claim-side declarative view of duplicate detection (claim C7) -/

/-- The `(1-based row, raw value)` items of one physical column, in row
order: the declarative counterpart of the row loop of
`find_duplicates_in_sheet`. -/
def colItems (values : List (List PyVal)) (startRow colIdx : Nat) : List (Nat × Str) :=
  (List.enumFrom startRow (values.drop startRow)).filterMap fun p =>
    match get_cell_value_safe p.2 colIdx with
    | none => none
    | some cv => if (pyStrip cv).isEmpty then none else some (p.1 + 1, cv)

/-- First-occurrence deduplication, keeping the original order. -/
def dedupFirstAux : List Str → List Str → List Str
  | [], _ => []
  | x :: xs, seen =>
    if x ∈ seen then dedupFirstAux xs seen else x :: dedupFirstAux xs (x :: seen)

def dedupFirst (l : List Str) : List Str := dedupFirstAux l []

/-- Declarative per-header-row part of the claim C7 reading. -/
def find_duplicates_groups_claim (ssId ssName sheetName : Str)
    (values : List (List PyVal)) (searchColumnName : Str) (normalize : Bool)
    (startRow : Nat) : Option (List PyVal) → List DupGroup
  | none => []
  | some hr =>
    let targetCols := find_all_column_indices_by_name hr searchColumnName []
    if targetCols.isEmpty then []
    else
      targetCols.flatMap fun colIdx =>
        let items := colItems values startRow colIdx
        let keyOf := fun (o : Nat × Str) => dupNormalize normalize o.2
        ((dedupFirst (items.map keyOf)).filter fun key =>
            1 < (items.filter fun o => keyOf o = key).length).map fun key =>
          let occ := items.filter fun o => keyOf o = key
          { spreadsheetId := ssId
            spreadsheetName := ssName
            sheetName := sheetName
            columnName :=
              if 1 < targetCols.length then
                searchColumnName ++ " (kolumna ".data ++ col_index_to_a1 colIdx ++ ")".data
              else searchColumnName
            value := (occ.headD (0, [])).2
            count := occ.length
            rows := occ.map (fun o => o.1)
            sample_cells := (occ.take 5).map (fun o => o.2) }

/-- Declarative reading of claim C7: per resolved physical column,
independently, one group per normalized value occurring in at least two
data rows, with the rows, count, display value and the first at most five
raw occurrences taken from that column's occurrence list. -/
def find_duplicates_in_sheet_claim (ssId ssName sheetName : Str)
    (values : List (List PyVal)) (searchColumnName : Str) (normalize : Bool) :
    List DupGroup :=
  if values.isEmpty then []
  else
    find_duplicates_groups_claim ssId ssName sheetName values searchColumnName normalize
      (detect_header_row values (some searchColumnName) none).2
      (detect_header_row values (some searchColumnName) none).1

/-- Claim-side reading of C2: the four strategies in the claim's fixed
order, the first applicable one deciding — the regex or literal primary
strategy, the numeric-normalised fallback only when both the query and
the cell contain a digit, and the URL/token fallback only when the
numeric fallback was applicable but failed and the cell carries a URL
marker. -/
def checkMatchClaim (regex : Bool) (matcher : Option (Str → Bool)) (caseSensitive : Bool)
    (pattern cellText : Str) : Bool :=
  let primary :=
    if regex then
      match matcher with
      | some m => m cellText
      | none => false
    else
      !pattern.isEmpty && !cellText.isEmpty &&
        (if caseSensitive then containsSub cellText pattern
         else containsSub (lowerStr cellText) (lowerStr pattern))
  let numericApplicable := pattern.any isPyDigit && cellText.any isPyDigit
  let normPat := normalize_number_string (.pstr pattern)
  let numericSuccess :=
    !normPat.isEmpty && containsSub (normalize_number_string (.pstr cellText)) normPat
  let urlSuccess :=
    (extract_numeric_tokens cellText).any fun tok =>
      !normPat.isEmpty && containsSub (normalize_number_string (.pstr tok)) normPat
  primary || (numericApplicable && numericSuccess) ||
    (!primary && numericApplicable && !numericSuccess &&
      hasUrlMarker (lowerStr cellText) && urlSuccess)

/-- A cancellation flag first observed set at the third check (check
indices 0 and 1 read false, every later check reads true). -/
def stopAt2 : Nat → Bool := fun k => decide (2 ≤ k)

/-! ## Claims -/

/-- C1, counterexample.  The claim says `normalize_number_string` maps
`"38 960"`, `"38,960"` and the float `38960.0` to one and the same string.
It does not: a comma is rewritten to a decimal dot, not dropped, so
`"38,960"` normalises to `"38.960"` while `"38 960"` normalises to
`"38960"` (and Python renders `str(38960.0)` as `"38960.0"`, which
normalises to itself). -/
theorem normalize_number_string_not_all_equal :
    normalize_number_string (.pstr "38,960".data) ≠
      normalize_number_string (.pstr "38 960".data) := by decide

/-- C1, amended.  `normalize_number_string` maps `"38 960"` to `"38960"`,
`"38,960"` to `"38.960"` (the comma becomes a decimal dot) and the float
`38960.0` to `"38960.0"`; the three results are pairwise distinct, though
the normalisation of `"38 960"` is a substring of that of `38960.0`, which
is why the numeric-fallback substring match still identifies those two
renderings. -/
theorem normalize_number_string_formats :
    normalize_number_string (.pstr "38 960".data) = "38960".data ∧
    normalize_number_string (.pstr "38,960".data) = "38.960".data ∧
    normalize_number_string (.pfloat "38960.0".data) = "38960.0".data ∧
    ("38960".data : Str) ≠ "38.960".data ∧
    ("38960".data : Str) ≠ "38960.0".data ∧
    ("38.960".data : Str) ≠ "38960.0".data ∧
    containsSub "38960.0".data "38960".data = true := by decide

/-- C5.  In regex mode with a pattern rejected by `re.compile`, the
`re.compile` call at line 1071 sits outside every try/except of
`search_in_sheet`, so iterating the generator raises `re.error` out of the
scan (modelled by `err = true`): no record is yielded, but contrary to the
claim the failure is an escaping exception, not an empty result, and it
occurs for every grid.  (The `except re.error` inside `check_match` guards
only `matcher.search`, which can no longer fail once compilation
succeeded, so the documented never-throws intent is defeated by the
compile site.) -/
theorem search_in_sheet_invalid_regex_raises
    (ssId ssName sheetName : Str) (values : List (List PyVal)) (pattern : Str)
    (caseSensitive : Bool) (searchColumnName : Option Str)
    (ignorePatterns : List Str) (headerRowIndices : Option (List Nat)) :
    search_in_sheet false noStop 0 rxBad ssId ssName sheetName values pattern true
      caseSensitive searchColumnName ignorePatterns headerRowIndices
      = ⟨[], 1, [], false, true⟩ := by
  simp [search_in_sheet, noStop, rxBad, Except.map]

/-- C8, counterexample.  The implemented extractor is `re.findall` of
`\d+(?:[.,]\d+)?`, which (i) never strips leading zeros — `"007"` yields
the token `"007"`, not `"7"` — and (ii) glues a decimal part onto the run —
`"1.5"` yields `["1.5"]`, not the digit runs `["1","5"]`. -/
theorem extract_numeric_tokens_ne_claim :
    extract_numeric_tokens "007".data ≠ extractNumericTokensClaim "007".data ∧
    extract_numeric_tokens "007".data = ["007".data] ∧
    extractNumericTokensClaim "007".data = ["7".data] ∧
    extract_numeric_tokens "1.5".data = ["1.5".data] ∧
    extractNumericTokensClaim "1.5".data = ["1".data, "5".data] := by decide

theorem takeWhile_append_not (p : Char → Bool) (a : Str) (sep : Char) (b : Str)
    (ha : a.all p = true) (hsep : p sep = false) :
    (a ++ sep :: b).takeWhile p = a ∧ (a ++ sep :: b).dropWhile p = sep :: b := by
  induction a with
  | nil => simp [List.takeWhile, List.dropWhile, hsep]
  | cons c a ih =>
    simp only [List.all_cons, Bool.and_eq_true] at ha
    simp [List.takeWhile, List.dropWhile, ha.1, ih ha.2]

theorem isTokenShaped_of_inv_true (tok : Str)
    (h : StInv (some (tok, true))) : isTokenShaped tok.reverse = true := by
  obtain ⟨a, sep, b, heq, ha, hall, hsep, hb, hball⟩ := h
  have hns : isPyDigit sep = false := by
    rcases hsep with h | h <;> subst h <;> decide
  have := takeWhile_append_not isPyDigit a sep b hall hns
  rw [isTokenShaped, heq, this.1, this.2]
  cases a with
  | nil => exact absurd rfl ha
  | cons c a =>
    rcases hsep with h | h <;> subst h <;> simp [hb, hball]

theorem isTokenShaped_of_digits (tok : Str) (h1 : tok ≠ [])
    (h2 : tok.all isPyDigit = true) : isTokenShaped tok = true := by
  have ht : tok.takeWhile isPyDigit = tok := List.takeWhile_eq_self_iff.mpr ?_
  · have hd : tok.dropWhile isPyDigit = [] := by
      rw [List.dropWhile_eq_nil_iff]
      intro x hx
      exact (List.all_eq_true.mp h2) x hx
    rw [isTokenShaped, ht, hd]
    simpa using h1
  · intro x hx
    exact (List.all_eq_true.mp h2) x hx

theorem entGo_nil_some (tok : Str) (us : Bool) :
    entGo [] (some (tok, us)) = [tok.reverse] := rfl

theorem entGo_cons_none (c : Char) (t : Str) :
    entGo (c :: t) none =
      if isPyDigit c then entGo t (some ([c], false)) else entGo t none := by
  cases t <;> rfl

theorem entGo_one_some (c : Char) (tok : Str) (usedSep : Bool) :
    entGo [c] (some (tok, usedSep)) =
      if isPyDigit c then entGo [] (some (c :: tok, usedSep))
      else [tok.reverse] := rfl

theorem entGo_cons2_some (c d : Char) (t2 tok : Str) (usedSep : Bool) :
    entGo (c :: d :: t2) (some (tok, usedSep)) =
      if isPyDigit c then entGo (d :: t2) (some (c :: tok, usedSep))
      else if !usedSep && (c = '.' || c = ',') then
        (if isPyDigit d then entGo t2 (some (d :: c :: tok, true))
         else tok.reverse :: entGo t2 none)
      else tok.reverse :: entGo (d :: t2) none := rfl

theorem entGo_tokens_shaped_aux (n : Nat) :
    ∀ (l : Str), l.length ≤ n → ∀ (st : Option (Str × Bool)), StInv st →
      ∀ tok ∈ entGo l st, isTokenShaped tok = true := by
  induction n with
  | zero =>
    intro l hl st hst tok htok
    interval_cases hl2 : l.length
    rw [List.length_eq_zero.mp hl2] at htok
    match st with
    | none => simp [entGo] at htok
    | some (tk, false) =>
      rw [entGo_nil_some] at htok
      simp at htok
      subst htok
      exact isTokenShaped_of_digits _ (by simpa using hst.1) (by simpa using hst.2)
    | some (tk, true) =>
      rw [entGo_nil_some] at htok
      simp at htok
      subst htok
      exact isTokenShaped_of_inv_true _ hst
  | succ n ih =>
    intro l hl st hst tok htok
    have base : ∀ (st : Option (Str × Bool)), StInv st →
        ∀ tok ∈ entGo [] st, isTokenShaped tok = true := by
      intro st hst tok htok
      exact ih [] (by simp) st hst tok htok
    match l with
    | [] => exact base st hst tok htok
    | c :: t =>
      have htn : t.length ≤ n := by
        simp at hl
        omega
      match st with
      | none =>
        rw [entGo_cons_none] at htok
        by_cases hc : isPyDigit c = true
        · rw [if_pos hc] at htok
          exact ih t htn (some ([c], false)) ⟨by simp, by simp [hc]⟩ tok htok
        · rw [if_neg hc] at htok
          exact ih t htn none trivial tok htok
      | some (tk, usedSep) =>
        have hinvCons : isPyDigit c = true → StInv (some (c :: tk, usedSep)) := by
          intro hc
          match usedSep with
          | false => exact ⟨by simp, by simp [hc, hst.2]⟩
          | true =>
            obtain ⟨a, sep, b, heq, ha, hall, hsep, hb, hball⟩ := hst
            refine ⟨a, sep, b ++ [c], by simp [heq], ha, hall, hsep, by simp, ?_⟩
            simp [hball, hc]
        have hfin : isTokenShaped tk.reverse = true := by
          match usedSep with
          | false =>
            exact isTokenShaped_of_digits _ (by simpa using hst.1) (by simpa using hst.2)
          | true => exact isTokenShaped_of_inv_true _ hst
        match t with
        | [] =>
          rw [entGo_one_some] at htok
          by_cases hc : isPyDigit c = true
          · rw [if_pos hc] at htok
            exact base (some (c :: tk, usedSep)) (hinvCons hc) tok htok
          · rw [if_neg hc] at htok
            simp at htok
            subst htok
            exact hfin
        | d :: t2 =>
          have ht2 : t2.length ≤ n := by
            simp at htn
            omega
          rw [entGo_cons2_some] at htok
          by_cases hc : isPyDigit c = true
          · rw [if_pos hc] at htok
            exact ih (d :: t2) htn (some (c :: tk, usedSep)) (hinvCons hc) tok htok
          · rw [if_neg hc] at htok
            by_cases hs : (!usedSep && (c = '.' || c = ',')) = true
            · rw [if_pos hs] at htok
              have husd : usedSep = false := by
                cases usedSep <;> simp_all
              subst husd
              by_cases hd : isPyDigit d = true
              · rw [if_pos hd] at htok
                refine ih t2 ht2 (some (d :: c :: tk, true)) ?_ tok htok
                refine ⟨tk.reverse, c, [d], by simp, by simpa using hst.1,
                  by simpa using hst.2, ?_, by simp, by simp [hd]⟩
                simp at hs
                tauto
              · rw [if_neg hd] at htok
                rcases List.mem_cons.mp htok with heq | hmem
                · subst heq
                  exact hfin
                · exact ih t2 ht2 none trivial tok hmem
            · rw [if_neg hs] at htok
              rcases List.mem_cons.mp htok with heq | hmem
              · subst heq
                exact hfin
              · exact ih (d :: t2) htn none trivial tok hmem

theorem entGo_tokens_shaped (l : Str) (st : Option (Str × Bool)) (h : StInv st) :
    ∀ tok ∈ entGo l st, isTokenShaped tok = true :=
  entGo_tokens_shaped_aux l.length l le_rfl st h

/-- C8, amended.  `extract_numeric_tokens` returns the leftmost
non-overlapping matches of `\d+(?:[.,]\d+)?` in the stringified input:
every returned token is a nonempty digit run optionally extended by one
dot or comma plus a further digit run, returned verbatim — leading zeros
are preserved; a URL ending in `/order/38960` still yields the token
`"38960"`. -/
theorem extract_numeric_tokens_tokens_shaped :
    (∀ l : Str, ∀ tok ∈ extract_numeric_tokens l, isTokenShaped tok = true) ∧
    extract_numeric_tokens "https://example.com/order/38960".data = ["38960".data] ∧
    extract_numeric_tokens "007".data = ["007".data] := by
  refine ⟨fun l => entGo_tokens_shaped l none trivial, by decide, by decide⟩

/-- C8, witness for the amended theorem at the URL input of the claim. -/
theorem extract_numeric_tokens_tokens_shaped_witness :
    "38960".data ∈ extract_numeric_tokens "https://example.com/order/38960".data ∧
    isTokenShaped "38960".data = true := by
  refine ⟨by decide, extract_numeric_tokens_tokens_shaped.1
    "https://example.com/order/38960".data "38960".data (by decide)⟩

/-! ### Idempotence of the two normalisers (claim C9) -/

theorem toNat_ofNat_valid (n : Nat) (h : n.isValidChar) : (Char.ofNat n).toNat = n := by
  unfold Char.ofNat
  rw [dif_pos h]
  rfl

theorem lowerChar_toNat_of_upper (c : Char) (h65 : 65 ≤ c.toNat) (h90 : c.toNat ≤ 90) :
    (lowerChar c).toNat = c.toNat + 32 := by
  rw [lowerChar, if_pos (by simp [h65, h90])]
  exact toNat_ofNat_valid _ (Or.inl (by omega))

theorem lowerChar_eq_self_of_not_upper (c : Char) (h : ¬(65 ≤ c.toNat ∧ c.toNat ≤ 90)) :
    lowerChar c = c := by
  rw [lowerChar, if_neg (by simpa using h)]

theorem lowerChar_idem (c : Char) : lowerChar (lowerChar c) = lowerChar c := by
  by_cases h : 65 ≤ c.toNat ∧ c.toNat ≤ 90
  · have h1 := lowerChar_toNat_of_upper c h.1 h.2
    apply lowerChar_eq_self_of_not_upper
    rw [h1]
    omega
  · simp [lowerChar_eq_self_of_not_upper c h]

theorem isPySpace_lowerChar (c : Char) : isPySpace (lowerChar c) = isPySpace c := by
  by_cases h : 65 ≤ c.toNat ∧ c.toNat ≤ 90
  · have h1 := lowerChar_toNat_of_upper c h.1 h.2
    have ha : isPySpace (lowerChar c) = false := by
      simp only [isPySpace, h1]
      simp only [Bool.or_eq_false_iff, decide_eq_false_iff_not, Bool.and_eq_false_iff,
        not_le, decide_eq_true_eq]
      omega
    have hb : isPySpace c = false := by
      simp only [isPySpace]
      simp only [Bool.or_eq_false_iff, decide_eq_false_iff_not, Bool.and_eq_false_iff,
        not_le, decide_eq_true_eq]
      omega
    rw [ha, hb]
  · rw [lowerChar_eq_self_of_not_upper c h]

theorem lowerChar_ne_underscore (c : Char) (h : c ≠ '_') : lowerChar c ≠ '_' := by
  by_cases hu : 65 ≤ c.toNat ∧ c.toNat ≤ 90
  · have h1 := lowerChar_toNat_of_upper c hu.1 hu.2
    intro he
    rw [he] at h1
    have : ('_').toNat = 95 := by decide
    omega
  · rw [lowerChar_eq_self_of_not_upper c hu]
    exact h

theorem lowerStr_idem (w : Str) : lowerStr (lowerStr w) = lowerStr w := by
  unfold lowerStr
  rw [List.map_map]
  exact List.map_congr_left (fun a _ => lowerChar_idem a)

theorem pyWordsAux_sound (l : Str) :
    ∀ acc : Str, (∀ c ∈ acc, isPySpace c = false) →
      ∀ w ∈ pyWordsAux l acc, w ≠ [] ∧ ∀ c ∈ w, isPySpace c = false := by
  induction l with
  | nil =>
    intro acc hacc w hw
    rw [pyWordsAux] at hw
    by_cases he : acc.isEmpty
    · simp [he] at hw
    · simp [he] at hw
      subst hw
      refine ⟨by simpa [List.isEmpty_iff] using he, ?_⟩
      intro c hc
      exact hacc c (List.mem_reverse.mp hc)
  | cons c0 t ih =>
    intro acc hacc w hw
    rw [pyWordsAux] at hw
    by_cases hs : isPySpace c0 = true
    · rw [if_pos hs] at hw
      by_cases he : acc.isEmpty
      · rw [if_pos he] at hw
        exact ih [] (by simp) w hw
      · rw [if_neg he] at hw
        rcases List.mem_cons.mp hw with heq | hmem
        · subst heq
          refine ⟨by simpa [List.isEmpty_iff] using he, ?_⟩
          intro c hc
          exact hacc c (List.mem_reverse.mp hc)
        · exact ih [] (by simp) w hmem
    · rw [if_neg hs] at hw
      refine ih (c0 :: acc) ?_ w hw
      intro c hc
      rcases List.mem_cons.mp hc with heq | hmem
      · subst heq
        simpa using hs
      · exact hacc c hmem

theorem pyWordsAux_chars (l : Str) :
    ∀ acc : Str, ∀ w ∈ pyWordsAux l acc, ∀ c ∈ w, c ∈ l ∨ c ∈ acc := by
  induction l with
  | nil =>
    intro acc w hw c hc
    rw [pyWordsAux] at hw
    by_cases he : acc.isEmpty
    · simp [he] at hw
    · simp [he] at hw
      subst hw
      exact Or.inr (List.mem_reverse.mp hc)
  | cons c0 t ih =>
    intro acc w hw c hc
    rw [pyWordsAux] at hw
    by_cases hs : isPySpace c0 = true
    · rw [if_pos hs] at hw
      by_cases he : acc.isEmpty
      · rw [if_pos he] at hw
        rcases ih [] w hw c hc with h | h
        · exact Or.inl (List.mem_cons_of_mem _ h)
        · simp at h
      · rw [if_neg he] at hw
        rcases List.mem_cons.mp hw with heq | hmem
        · subst heq
          exact Or.inr (List.mem_reverse.mp hc)
        · rcases ih [] w hmem c hc with h | h
          · exact Or.inl (List.mem_cons_of_mem _ h)
          · simp at h
    · rw [if_neg hs] at hw
      rcases ih (c0 :: acc) w hw c hc with h | h
      · exact Or.inl (List.mem_cons_of_mem _ h)
      · rcases List.mem_cons.mp h with heq | hmem
        · subst heq
          exact Or.inl (List.mem_cons_self _ _)
        · exact Or.inr hmem

theorem pyWordsAux_append (w : Str) :
    ∀ (l acc : Str), (∀ c ∈ w, isPySpace c = false) →
      pyWordsAux (w ++ l) acc = pyWordsAux l (w.reverse ++ acc) := by
  induction w with
  | nil => intro l acc _; simp
  | cons c w' ih =>
    intro l acc hw
    have hc : isPySpace c = false := hw c (List.mem_cons_self _ _)
    rw [List.cons_append, pyWordsAux, if_neg (by simp [hc])]
    rw [ih l (c :: acc) (fun x hx => hw x (List.mem_cons_of_mem _ hx))]
    simp

theorem pyWords_joinSpace (ws : List Str)
    (h : ∀ w ∈ ws, w ≠ [] ∧ ∀ c ∈ w, isPySpace c = false) :
    pyWords (joinSpace ws) = ws := by
  induction ws with
  | nil => rfl
  | cons w ws' ih =>
    have hw := h w (List.mem_cons_self _ _)
    cases ws' with
    | nil =>
      show pyWordsAux (joinSpace [w]) [] = [w]
      have : joinSpace [w] = w ++ [] := by simp [joinSpace]
      rw [this, pyWordsAux_append w [] [] hw.2, pyWordsAux]
      simp [List.isEmpty_iff, hw.1]
    | cons w2 ws'' =>
      show pyWordsAux (joinSpace (w :: w2 :: ws'')) [] = w :: w2 :: ws''
      have hj : joinSpace (w :: w2 :: ws'') = w ++ ' ' :: joinSpace (w2 :: ws'') := rfl
      rw [hj, pyWordsAux_append w _ [] hw.2, pyWordsAux,
        if_pos (by decide), if_neg (by simp [List.isEmpty_iff, hw.1])]
      rw [List.append_nil, List.reverse_reverse]
      exact congrArg _ (ih (fun x hx => h x (List.mem_cons_of_mem _ hx)))

theorem dropWhile_eq_self_of_head (l : Str)
    (h : ∀ c, l.head? = some c → isPySpace c = false) :
    l.dropWhile isPySpace = l := by
  cases l with
  | nil => rfl
  | cons c t => simp [List.dropWhile, h c rfl]

theorem pyStrip_eq_self (l : Str)
    (h1 : ∀ c, l.head? = some c → isPySpace c = false)
    (h2 : ∀ c, l.getLast? = some c → isPySpace c = false) :
    pyStrip l = l := by
  unfold pyStrip
  rw [dropWhile_eq_self_of_head l h1]
  rw [dropWhile_eq_self_of_head l.reverse
    (fun c hc => h2 c (by rwa [List.head?_reverse] at hc))]
  exact List.reverse_reverse l

theorem joinSpace_ne_nil (w : Str) (ws : List Str) (hw : w ≠ []) :
    joinSpace (w :: ws) ≠ [] := by
  cases ws with
  | nil => simpa [joinSpace] using hw
  | cons w2 ws'' => simp [joinSpace]

theorem joinSpace_head (ws : List Str)
    (h : ∀ w ∈ ws, w ≠ [] ∧ ∀ c ∈ w, isPySpace c = false) :
    ∀ c, (joinSpace ws).head? = some c → isPySpace c = false := by
  cases ws with
  | nil => intro c hc; simp [joinSpace] at hc
  | cons w ws' =>
    have hw := h w (List.mem_cons_self _ _)
    intro c hc
    cases ws' with
    | nil =>
      apply hw.2
      exact List.mem_of_mem_head? hc
    | cons w2 ws'' =>
      have hj : joinSpace (w :: w2 :: ws'') = w ++ ' ' :: joinSpace (w2 :: ws'') := rfl
      rw [hj, List.head?_append] at hc
      apply hw.2
      cases hhw : w.head? with
      | none => exact absurd hhw (by simpa [List.head?_eq_none_iff] using hw.1)
      | some c0 =>
        rw [hhw] at hc
        simp at hc
        subst hc
        exact List.mem_of_mem_head? hhw

theorem joinSpace_getLast (ws : List Str)
    (h : ∀ w ∈ ws, w ≠ [] ∧ ∀ c ∈ w, isPySpace c = false) :
    ∀ c, (joinSpace ws).getLast? = some c → isPySpace c = false := by
  induction ws with
  | nil => intro c hc; simp [joinSpace] at hc
  | cons w ws' ih =>
    have hw := h w (List.mem_cons_self _ _)
    intro c hc
    cases ws' with
    | nil =>
      apply hw.2
      exact List.mem_of_mem_getLast? hc
    | cons w2 ws'' =>
      have hj : joinSpace (w :: w2 :: ws'') = w ++ ' ' :: joinSpace (w2 :: ws'') := rfl
      have hne : joinSpace (w2 :: ws'') ≠ [] :=
        joinSpace_ne_nil w2 ws'' (h w2 (by simp)).1
      rw [hj, List.getLast?_append_of_ne_nil _ (by simp)] at hc
      have : (' ' :: joinSpace (w2 :: ws'')) = [' '] ++ joinSpace (w2 :: ws'') := rfl
      rw [this, List.getLast?_append_of_ne_nil _ hne] at hc
      exact ih (fun x hx => h x (List.mem_cons_of_mem _ hx)) c hc

theorem lowerStr_joinSpace (ws : List Str) :
    lowerStr (joinSpace ws) = joinSpace (ws.map lowerStr) := by
  induction ws with
  | nil => rfl
  | cons w ws' ih =>
    cases ws' with
    | nil => rfl
    | cons w2 ws'' =>
      have hj : joinSpace (w :: w2 :: ws'') = w ++ ' ' :: joinSpace (w2 :: ws'') := rfl
      have hj2 : joinSpace (lowerStr w :: (w2 :: ws'').map lowerStr)
          = lowerStr w ++ ' ' :: joinSpace ((w2 :: ws'').map lowerStr) := rfl
      rw [hj]
      show lowerStr (w ++ ' ' :: joinSpace (w2 :: ws'')) = _
      rw [List.map_cons, hj2]
      unfold lowerStr
      rw [List.map_append, List.map_cons]
      rw [show lowerChar ' ' = ' ' by decide]
      exact congrArg _ (congrArg _ ih)

theorem mem_joinSpace (ws : List Str) (c : Char) (hc : c ∈ joinSpace ws) :
    c = ' ' ∨ ∃ w ∈ ws, c ∈ w := by
  induction ws with
  | nil => simp [joinSpace] at hc
  | cons w ws' ih =>
    cases ws' with
    | nil =>
      right
      exact ⟨w, by simp, hc⟩
    | cons w2 ws'' =>
      have hj : joinSpace (w :: w2 :: ws'') = w ++ ' ' :: joinSpace (w2 :: ws'') := rfl
      rw [hj, List.mem_append] at hc
      rcases hc with h | h
      · exact Or.inr ⟨w, by simp, h⟩
      · rcases List.mem_cons.mp h with heq | hmem
        · exact Or.inl heq
        · rcases ih hmem with h' | ⟨w', hw', hcw'⟩
          · exact Or.inl h'
          · exact Or.inr ⟨w', List.mem_cons_of_mem _ hw', hcw'⟩

theorem map_und_eq_self (l : Str) (h : ∀ c ∈ l, c ≠ '_') :
    l.map (fun c => if c = '_' then ' ' else c) = l := by
  have := List.map_congr_left (l := l)
    (f := fun c => if c = '_' then ' ' else c) (g := id)
    (fun a ha => by simp [h a ha])
  simpa using this

theorem und_ne_underscore (c : Char) : (if c = '_' then ' ' else c) ≠ '_' := by
  by_cases h : c = '_'
  · simp [h]
  · simp [h]

theorem normalizeHeaderStr_canonical (s : Str) :
    normalizeHeaderStr s
      = joinSpace ((pyWords (s.map (fun c => if c = '_' then ' ' else c))).map lowerStr) := by
  set s1 := s.map (fun c => if c = '_' then ' ' else c) with hs1
  have hwf : ∀ w ∈ pyWords s1, w ≠ [] ∧ ∀ c ∈ w, isPySpace c = false :=
    pyWordsAux_sound s1 [] (by simp)
  show lowerStr (pyStrip (joinSpace (pyWords s1))) = joinSpace ((pyWords s1).map lowerStr)
  rw [pyStrip_eq_self _ (joinSpace_head _ hwf) (joinSpace_getLast _ hwf)]
  exact lowerStr_joinSpace _

theorem normalizeHeaderStr_idem (s : Str) :
    normalizeHeaderStr (normalizeHeaderStr s) = normalizeHeaderStr s := by
  set undFn := fun c => if c = '_' then ' ' else c with hund
  set ws := pyWords (s.map undFn) with hws
  have hwf : ∀ w ∈ ws, w ≠ [] ∧ ∀ c ∈ w, isPySpace c = false :=
    pyWordsAux_sound _ [] (by simp)
  have hchars : ∀ w ∈ ws, ∀ c ∈ w, c ∈ s.map undFn := by
    intro w hw c hc
    rcases pyWordsAux_chars _ [] w hw c hc with h | h
    · exact h
    · simp at h
  have hnotund : ∀ w ∈ ws, ∀ c ∈ w, c ≠ '_' := by
    intro w hw c hc
    rcases List.mem_map.mp (hchars w hw c hc) with ⟨c0, _, hc0⟩
    rw [← hc0]
    exact und_ne_underscore c0
  have hA : normalizeHeaderStr s = joinSpace (ws.map lowerStr) :=
    normalizeHeaderStr_canonical s
  set ws' := ws.map lowerStr with hws'
  have hwf' : ∀ w ∈ ws', w ≠ [] ∧ ∀ c ∈ w, isPySpace c = false := by
    intro w hw
    rcases List.mem_map.mp hw with ⟨w0, hw0, hmap⟩
    obtain ⟨h1, h2⟩ := hwf w0 hw0
    constructor
    · rw [← hmap]
      simpa [lowerStr] using h1
    · intro c hc
      rw [← hmap] at hc
      rcases List.mem_map.mp hc with ⟨c0, hc0, hcl⟩
      rw [← hcl, isPySpace_lowerChar]
      exact h2 c0 hc0
  have hnotund' : ∀ w ∈ ws', ∀ c ∈ w, c ≠ '_' := by
    intro w hw c hc
    rcases List.mem_map.mp hw with ⟨w0, hw0, hmap⟩
    rw [← hmap] at hc
    rcases List.mem_map.mp hc with ⟨c0, hc0, hcl⟩
    rw [← hcl]
    exact lowerChar_ne_underscore c0 (hnotund w0 hw0 c0 hc0)
  rw [hA]
  have hB : (joinSpace ws').map undFn = joinSpace ws' := by
    apply map_und_eq_self
    intro c hc
    rcases mem_joinSpace ws' c hc with h | ⟨w, hw, hcw⟩
    · rw [h]; decide
    · exact hnotund' w hw c hcw
  show lowerStr (pyStrip (joinSpace (pyWords ((joinSpace ws').map undFn)))) = joinSpace ws'
  rw [hB]
  rw [show pyWords (joinSpace ws') = ws' from pyWords_joinSpace ws' hwf']
  rw [pyStrip_eq_self _ (joinSpace_head _ hwf') (joinSpace_getLast _ hwf')]
  rw [lowerStr_joinSpace]
  rw [show ws'.map lowerStr = ws' by
    rw [hws', List.map_map]
    exact List.map_congr_left (fun w _ => lowerStr_idem w)]

theorem keep_not_special (c : Char) (hk : (isPyDigit c || c = '.' || c = '-') = true) :
    c ≠ ' ' ∧ c ≠ ' ' ∧ c ≠ ' ' ∧ c ≠ ',' := by
  refine ⟨?_, ?_, ?_, ?_⟩ <;> intro he <;> subst he <;> revert hk <;> decide

theorem nns_pstr (s : Str) :
    normalize_number_string (.pstr s)
      = (((s.filter (fun c => !(c = '\u00a0' || c = '\u202f'))).filter
            (fun c => !(c = ' '))).map (fun c => if c = ',' then '.' else c)).filter
          (fun c => isPyDigit c || c = '.' || c = '-') := rfl

theorem normalize_number_string_pstr_idem (s : Str) :
    normalize_number_string (.pstr (normalize_number_string (.pstr s)))
      = normalize_number_string (.pstr s) := by
  set r := normalize_number_string (.pstr s) with hrdef
  have hr : ∀ c ∈ r, (isPyDigit c || c = '.' || c = '-') = true := by
    intro c hc
    rw [hrdef, nns_pstr] at hc
    exact (List.mem_filter.mp hc).2
  have e1 : r.filter (fun c => !(c = '\u00a0' || c = '\u202f')) = r :=
    List.filter_eq_self.mpr (fun c hc => by
      have := keep_not_special c (hr c hc)
      simp [this.1, this.2.1])
  have e2 : r.filter (fun c => !(c = ' ')) = r :=
    List.filter_eq_self.mpr (fun c hc => by
      have := keep_not_special c (hr c hc)
      simp [this.2.2.1])
  have e3 : r.map (fun c => if c = ',' then '.' else c) = r := by
    have := List.map_congr_left (l := r)
      (f := fun c => if c = ',' then '.' else c) (g := id)
      (fun c hc => by simp [(keep_not_special c (hr c hc)).2.2.2])
    simpa using this
  have e4 : r.filter (fun c => isPyDigit c || c = '.' || c = '-') = r :=
    List.filter_eq_self.mpr hr
  rw [nns_pstr r, e1, e2, e3, e4]

/-- C9.  Both normalisers are idempotent on strings: applying
`normalize_header_name` or `normalize_number_string` to its own output
returns that output unchanged. -/
theorem normalization_idempotent :
    (∀ s : Str, normalize_header_name (.pstr (normalize_header_name (.pstr s)))
      = normalize_header_name (.pstr s)) ∧
    (∀ s : Str, normalize_number_string (.pstr (normalize_number_string (.pstr s)))
      = normalize_number_string (.pstr s)) :=
  ⟨fun s => normalizeHeaderStr_idem s, fun s => normalize_number_string_pstr_idem s⟩

/-! ### The wildcard matcher (claim C4) -/

theorem containsSub_nil (pat : Str) (h : pat ≠ []) : containsSub [] pat = false := by
  cases pat with
  | nil => exact absurd rfl h
  | cons c t => simp [containsSub, List.isPrefixOf]

theorem isSuffixOf_nil (pat : Str) (h : pat ≠ []) : List.isSuffixOf pat ([] : Str) = false := by
  cases pat with
  | nil => exact absurd rfl h
  | cons c t => simp [List.isSuffixOf, List.isPrefixOf_iff_prefix]

theorem isPrefixOf_nil (pat : Str) (h : pat ≠ []) : List.isPrefixOf pat ([] : Str) = false := by
  cases pat with
  | nil => exact absurd rfl h
  | cons c t => simp [List.isPrefixOf]

theorem wildcardStep_nil (pat : Str) : wildcardStep [] pat = false := by
  unfold wildcardStep
  split
  · rfl
  · split
    · next rest _ _ =>
      by_cases h2 : rest.dropLast.isEmpty
      · simp [h2]
      · simp only [h2, Bool.not_false, Bool.true_and]
        exact containsSub_nil _ (by simpa [List.isEmpty_iff] using h2)
    · split
      · next rest _ _ _ =>
        by_cases h4 : rest.isEmpty
        · simp [h4]
        · simp only [h4, Bool.not_false, Bool.true_and]
          exact isSuffixOf_nil _ (by simpa [List.isEmpty_iff] using h4)
      · split
        · next c rest _ _ _ _ =>
          by_cases h6 : ((c :: rest).dropLast).isEmpty
          · simp [h6]
          · simp only [h6, Bool.not_false, Bool.true_and]
            exact isPrefixOf_nil _ (by simpa [List.isEmpty_iff] using h6)
        · exact containsSub_nil _ (by simp)

/-- C4, counterexample.  The claim describes the candidate normalisation of
the wildcard matcher as "trimmed, lowercased"; for the header variant the
code instead normalises with `normalize_header_name`, which also replaces
underscores by spaces, so the bare pattern `"a_b"` does not match the
header `"a_b"` even though the trimmed-lowercased candidate contains it
verbatim. -/
theorem matches_ignore_pattern_underscore_counterexample :
    matches_ignore_pattern "a_b".data ["a_b".data] = false ∧
    lowerStr (pyStrip "a_b".data) = "a_b".data ∧
    containsSub "a_b".data "a_b".data = true := by decide

/-- C4, amended.  Both matchers return true exactly when some pattern in
the list (itself trimmed and lowercased; empty or star-only patterns never
match) matches the normalised candidate under the rules star-t-star means
contains t, star-t means ends with t, t-star means starts with t, and a
bare pattern means contains (substring semantics); the empty pattern list
never matches; a first matching pattern decides the result.  The candidate
normalisation differs between the two: `matches_ignore_value` trims and
lowercases, while `matches_ignore_pattern` applies the header normaliser
(underscores to spaces, whitespace runs collapsed, trim, lowercase).  The
spec's concrete examples hold. -/
theorem matches_ignore_semantics :
    (∀ (c : Str) (ps : List Str), matches_ignore_value c ps = true ↔
      ∃ p ∈ ps, wildcardStep (lowerStr (pyStrip c)) p = true) ∧
    (∀ (h : Str) (ps : List Str), matches_ignore_pattern h ps = true ↔
      ∃ p ∈ ps, wildcardStep (normalizeHeaderStr h) p = true) ∧
    (∀ c : Str, matches_ignore_value c [] = false) ∧
    (∀ h : Str, matches_ignore_pattern h [] = false) ∧
    (∀ (c p : Str) (ps : List Str), wildcardStep (lowerStr (pyStrip c)) p = true →
      matches_ignore_value c (p :: ps) = true) ∧
    matches_ignore_pattern "temporary".data ["temp*".data] = true ∧
    matches_ignore_pattern "old_temp".data ["*temp".data] = true ∧
    matches_ignore_pattern "production".data ["temp*".data, "*debug*".data] = false ∧
    matches_ignore_value "my_test_col".data ["test".data] = true := by
  have hv : ∀ (c : Str) (ps : List Str), matches_ignore_value c ps = true ↔
      ∃ p ∈ ps, wildcardStep (lowerStr (pyStrip c)) p = true := by
    intro c ps
    unfold matches_ignore_value
    by_cases hps : ps.isEmpty
    · simp [hps, List.isEmpty_iff.mp hps]
    · rw [if_neg hps]
      by_cases hc : c.isEmpty
      · rw [if_pos hc]
        rw [List.isEmpty_iff.mp hc]
        simp [wildcardStep_nil, pyStrip, lowerStr]
      · rw [if_neg hc]
        by_cases hn : (lowerStr (pyStrip c)).isEmpty
        · rw [if_pos hn]
          rw [List.isEmpty_iff.mp hn]
          simp [wildcardStep_nil]
        · rw [if_neg hn]
          unfold wildcardLoop
          exact List.any_eq_true
  have hp : ∀ (h : Str) (ps : List Str), matches_ignore_pattern h ps = true ↔
      ∃ p ∈ ps, wildcardStep (normalizeHeaderStr h) p = true := by
    intro h ps
    unfold matches_ignore_pattern
    by_cases hps : ps.isEmpty
    · simp [hps, List.isEmpty_iff.mp hps]
    · rw [if_neg hps]
      by_cases hn : (normalizeHeaderStr h).isEmpty
      · rw [if_pos hn]
        constructor
        · intro hfalse
          exact absurd hfalse (by simp)
        · rintro ⟨p, _, hstep⟩
          rw [List.isEmpty_iff.mp hn] at hstep
          rw [wildcardStep_nil p] at hstep
          exact absurd hstep (by simp)
      · rw [if_neg hn]
        unfold wildcardLoop
        exact List.any_eq_true
  refine ⟨hv, hp, ?_, ?_, ?_, by decide, by decide, by decide, by decide⟩
  · intro c
    simp [matches_ignore_value]
  · intro h
    simp [matches_ignore_pattern]
  · intro c p ps hstep
    exact (hv c (p :: ps)).mpr ⟨p, List.mem_cons_self _ _, hstep⟩

/-- C4, witness for the amended theorem: the short-circuit clause applied
at the spec's bare-pattern example. -/
theorem matches_ignore_semantics_witness :
    wildcardStep (lowerStr (pyStrip "my_test_col".data)) "test".data = true ∧
    matches_ignore_value "my_test_col".data ["test".data, "zzz".data] = true :=
  ⟨by decide, matches_ignore_semantics.2.2.2.2.1 "my_test_col".data "test".data
    ["zzz".data] (by decide)⟩

/-! ### Column resolution (claim C3) -/

/-- C3, counterexample.  The claim quantifies over every requested column
name, but the code returns `[]` whenever the requested name is falsy or
normalises to the empty string, even when a column's normalised header
equals the normalised requested name.  With header row `[None]` and
requested name `"_"` (whose normalisation is the empty string, as is
`normalize_header_name(None)`), the claim demands `[0]`, the code returns
`[]`. -/
theorem find_all_column_indices_empty_name_counterexample :
    find_all_column_indices_by_name [PyVal.pnone] "_".data [] = [] ∧
    normalize_header_name PyVal.pnone = normalizeHeaderStr "_".data ∧
    matches_ignore_pattern (pyStr PyVal.pnone) [] = false ∧
    ([] : List Nat) ≠ [0] := by decide

/-- C3, amended.  Provided the requested name normalises to a nonempty
string, column resolution returns exactly the indices, in increasing
index order, of the columns whose normalised header equals the normalised
requested name and which do not match any ignore pattern; the two
concrete resolutions of the claim hold. -/
theorem find_all_column_indices_by_name_spec :
    (∀ (headerRow : List PyVal) (name : Str) (ps : List Str),
      normalizeHeaderStr name ≠ [] →
      find_all_column_indices_by_name headerRow name ps =
        (List.range headerRow.length).filter (fun i =>
          normalize_header_name (headerRow.getD i .pnone) = normalizeHeaderStr name &&
          !matches_ignore_pattern (pyStr (headerRow.getD i .pnone)) ps)) ∧
    find_all_column_indices_by_name
      [.pstr "Zlecenie".data, .pstr "Stawka".data, .pstr "Zlecenie".data,
       .pstr "Uwagi".data, .pstr "zlecenie".data] "Zlecenie".data [] = [0, 2, 4] ∧
    find_all_column_indices_by_name
      [.pstr "X".data, .pstr "X_old".data] "X".data ["*old".data] = [0] := by
  refine ⟨?_, by decide, by decide⟩
  intro headerRow name ps hn
  have hname : ¬name.isEmpty := by
    intro he
    rw [List.isEmpty_iff.mp he] at hn
    exact hn rfl
  unfold find_all_column_indices_by_name
  by_cases hrow : headerRow.isEmpty
  · rw [if_pos (by simp [hrow])]
    rw [List.isEmpty_iff.mp hrow]
    rfl
  · rw [if_neg (by simp [hrow, hname])]
    apply List.filter_congr
    intro i hi
    have hlt : i < headerRow.length := List.mem_range.mp hi
    have hget : headerRow[i]? = some (headerRow.getD i .pnone) := by
      rw [List.getD_eq_getElem?_getD, List.getElem?_eq_getElem hlt]
      simp
    rw [hget]
    cases hcell : headerRow.getD i .pnone with
    | pnone =>
      have : normalize_header_name PyVal.pnone = [] := rfl
      simp only [this]
      simp [Ne.symm hn]
    | pstr s =>
      simp only [normalize_header_name]
      by_cases hps : ps.isEmpty
      · have : matches_ignore_pattern (pyStr (PyVal.pstr s)) ps = false := by
          unfold matches_ignore_pattern
          rw [if_pos hps]
        simp [this, hps]
      · simp [hps]
    | pint n =>
      simp only [normalize_header_name]
      by_cases hps : ps.isEmpty
      · have : matches_ignore_pattern (pyStr (PyVal.pint n)) ps = false := by
          unfold matches_ignore_pattern
          rw [if_pos hps]
        simp [this, hps]
      · simp [hps]
    | pfloat r =>
      simp only [normalize_header_name]
      by_cases hps : ps.isEmpty
      · have : matches_ignore_pattern (pyStr (PyVal.pfloat r)) ps = false := by
          unfold matches_ignore_pattern
          rw [if_pos hps]
        simp [this, hps]
      · simp [hps]

/-- C3, witness for the amended theorem at the claim's multi-column
example. -/
theorem find_all_column_indices_by_name_spec_witness :
    normalizeHeaderStr "Zlecenie".data ≠ [] ∧
    find_all_column_indices_by_name
      [.pstr "Zlecenie".data, .pstr "Stawka".data, .pstr "Zlecenie".data,
       .pstr "Uwagi".data, .pstr "zlecenie".data] "Zlecenie".data [] =
      (List.range 5).filter (fun i =>
        normalize_header_name
          (([PyVal.pstr "Zlecenie".data, .pstr "Stawka".data, .pstr "Zlecenie".data,
             .pstr "Uwagi".data, .pstr "zlecenie".data]).getD i .pnone)
          = normalizeHeaderStr "Zlecenie".data &&
        !matches_ignore_pattern
          (pyStr (([PyVal.pstr "Zlecenie".data, .pstr "Stawka".data,
            .pstr "Zlecenie".data, .pstr "Uwagi".data,
            .pstr "zlecenie".data]).getD i .pnone)) []) :=
  ⟨by decide, find_all_column_indices_by_name_spec.1 _ "Zlecenie".data [] (by decide)⟩

/-! ### The matching ladder (claim C2) -/

theorem entGo_no_digit (l : Str) (h : ∀ c ∈ l, isPyDigit c = false) :
    entGo l none = [] := by
  induction l with
  | nil => rfl
  | cons c t ih =>
    rw [entGo_cons_none, if_neg (by simp [h c (List.mem_cons_self _ _)])]
    exact ih (fun x hx => h x (List.mem_cons_of_mem _ hx))

theorem extract_numeric_tokens_no_digit (l : Str) (h : l.any isPyDigit = false) :
    extract_numeric_tokens l = [] := by
  apply entGo_no_digit
  intro c hc
  by_contra hcd
  rw [List.any_eq_false] at h
  exact h c hc (by simpa using hcd)

/-- C2.  The per-cell match decision of `check_match` is exactly the
claim's ladder: the regex-or-literal primary strategy first, then the
numeric-normalised fallback gated on both sides containing a digit, then
the URL/token fallback gated on the numeric fallback having failed and
the cell containing a URL marker.  (The code runs its URL branch whenever
the pattern has digits, but when the cell has none the token list is
empty, so the two gates agree extensionally.) -/
theorem check_match_eq_claim (regex : Bool) (matcher : Option (Str → Bool))
    (caseSensitive : Bool) (pattern cellText : Str) :
    check_match regex matcher caseSensitive pattern cellText
      = checkMatchClaim regex matcher caseSensitive pattern cellText := by
  unfold check_match checkMatchClaim
  simp only []
  generalize hP : (if regex then
      match matcher with
      | some m => m cellText
      | none => false
    else
      !pattern.isEmpty && !cellText.isEmpty &&
        (if caseSensitive then containsSub cellText pattern
         else containsSub (lowerStr cellText) (lowerStr pattern))) = P
  cases hpd : pattern.any isPyDigit with
  | false =>
    cases P <;> simp [hpd]
  | true =>
    cases hcd : cellText.any isPyDigit with
    | false =>
      have htok := extract_numeric_tokens_no_digit cellText hcd
      cases P <;> simp [hpd, hcd, htok]
    | true =>
      cases P with
      | false =>
        by_cases hns : (!(normalize_number_string (.pstr pattern)).isEmpty &&
            containsSub (normalize_number_string (.pstr cellText))
              (normalize_number_string (.pstr pattern))) = true
        · simp [hpd, hcd, hns]
        · simp only [Bool.not_eq_true] at hns
          simp [hpd, hcd, hns]
      | true => simp [hpd, hcd]

/-! ### Value-level ignore filtering of the scanner (claim C10) -/

theorem matches_ignore_value_empty (c : Str) (ps : List Str) (h : ps.isEmpty = true) :
    matches_ignore_value c ps = false := by
  unfold matches_ignore_value
  rw [if_pos h]

theorem rowRecsAll_not_ignored (ssId ssName sheetName : Str)
    (headerRow : Option (List PyVal)) (stawkaIdx : Option Nat)
    (ignorePatterns : List Str) (regex : Bool) (matcher : Option (Str → Bool))
    (caseSensitive : Bool) (pattern : Str) (rIdx : Nat) (row : List PyVal) :
    ∀ r ∈ rowRecsAll ssId ssName sheetName headerRow stawkaIdx ignorePatterns regex
        matcher caseSensitive pattern rIdx row,
      matches_ignore_value r.searchedValue ignorePatterns = false := by
  intro r hr
  unfold rowRecsAll at hr
  rcases List.mem_filterMap.mp hr with ⟨cIdx, _, heq⟩
  simp only [] at heq
  split at heq
  · exact absurd heq (by simp)
  · split at heq
    · split at heq
      · exact absurd heq (by simp)
      · next hig =>
        rw [Option.some.injEq] at heq
        subst heq
        simp only [Bool.and_eq_true, not_and, Bool.not_eq_true'] at hig
        by_cases hps : ignorePatterns.isEmpty
        · exact matches_ignore_value_empty _ _ hps
        · have h2 := hig (by simpa using hps)
          simpa using h2
    · exact absurd heq (by simp)

theorem rowRecsNamed_not_ignored (ssId ssName sheetName : Str)
    (headerRow : Option (List PyVal)) (stawkaIdx : Option Nat)
    (ignorePatterns : List Str) (regex : Bool) (matcher : Option (Str → Bool))
    (caseSensitive : Bool) (pattern : Str) (targetCols : List Nat)
    (rIdx : Nat) (row : List PyVal) :
    ∀ r ∈ rowRecsNamed ssId ssName sheetName headerRow stawkaIdx ignorePatterns regex
        matcher caseSensitive pattern targetCols rIdx row,
      matches_ignore_value r.searchedValue ignorePatterns = false := by
  intro r hr
  unfold rowRecsNamed at hr
  rcases List.mem_filterMap.mp hr with ⟨tIdx, _, heq⟩
  split at heq
  · exact absurd heq (by simp)
  · split at heq
    · split at heq
      · exact absurd heq (by simp)
      · next hig =>
        rw [Option.some.injEq] at heq
        subst heq
        simp only [Bool.and_eq_true, not_and, Bool.not_eq_true'] at hig
        by_cases hps : ignorePatterns.isEmpty
        · exact matches_ignore_value_empty _ _ hps
        · have h2 := hig (by simpa using hps)
          simpa using h2
    · exact absurd heq (by simp)

theorem emitLoop_subset (flag : Nat → Bool) (rs : List MatchRec) :
    ∀ k, ∀ r ∈ (emitLoop flag k rs).1, r ∈ rs := by
  induction rs with
  | nil => intro k r hr; simp [emitLoop] at hr
  | cons r0 rest ih =>
    intro k r hr
    rw [emitLoop] at hr
    by_cases hf : flag k
    · rw [if_pos hf] at hr
      simp at hr
    · rw [if_neg hf] at hr
      rcases List.mem_cons.mp hr with heq | hmem
      · exact heq ▸ List.mem_cons_self _ _
      · exact List.mem_cons_of_mem _ (ih (k + 1) r hmem)

theorem scanRows_nil (perRec : Bool) (flag : Nat → Bool) (k : Nat)
    (rowRecs : Nat → List PyVal → List MatchRec) (rIdx : Nat) :
    scanRows perRec flag k rowRecs rIdx [] = ([], k, false) := rfl

theorem scanRows_cons (perRec : Bool) (flag : Nat → Bool) (k : Nat)
    (rowRecs : Nat → List PyVal → List MatchRec) (rIdx : Nat)
    (row : List PyVal) (rest : List (List PyVal)) :
    scanRows perRec flag k rowRecs rIdx (row :: rest) =
      if flag k then ([], k + 1, false)
      else
        let e := if perRec then emitLoop flag (k + 1) (rowRecs rIdx row)
          else (rowRecs rIdx row, k + 1, false)
        if e.2.2 then e
        else
          let p := scanRows perRec flag e.2.1 rowRecs (rIdx + 1) rest
          (e.1 ++ p.1, p.2.1, p.2.2) := rfl

theorem scanRows_prop (P : MatchRec → Prop) (perRec : Bool) (flag : Nat → Bool)
    (rowRecs : Nat → List PyVal → List MatchRec)
    (h : ∀ i row, ∀ r ∈ rowRecs i row, P r) (rows : List (List PyVal)) :
    ∀ k rIdx, ∀ r ∈ (scanRows perRec flag k rowRecs rIdx rows).1, P r := by
  induction rows with
  | nil => intro k rIdx r hr; simp [scanRows_nil] at hr
  | cons row rest ih =>
    intro k rIdx r hr
    rw [scanRows_cons] at hr
    by_cases hf : flag k = true
    · rw [if_pos hf] at hr
      simp at hr
    · rw [if_neg hf] at hr
      simp only [] at hr
      have hsub : ∀ x ∈ (if perRec then emitLoop flag (k + 1) (rowRecs rIdx row)
          else (rowRecs rIdx row, k + 1, false)).1, P x := by
        intro x hx
        by_cases hpr : perRec = true
        · rw [if_pos hpr] at hx
          exact h rIdx row x (emitLoop_subset flag _ _ x hx)
        · rw [if_neg hpr] at hx
          exact h rIdx row x hx
      by_cases he : (if perRec then emitLoop flag (k + 1) (rowRecs rIdx row)
          else (rowRecs rIdx row, k + 1, false)).2.2 = true
      · rw [if_pos he] at hr
        exact hsub r hr
      · rw [if_neg he] at hr
        rcases List.mem_append.mp hr with hmem | hmem
        · exact hsub r hmem
        · exact ih _ _ r hmem

theorem search_in_sheet_records_not_ignored (perRec : Bool) (flag : Nat → Bool) (k : Nat)
    (rxCompile : Str → Bool → Except Unit (Str → Bool))
    (ssId ssName sheetName : Str) (values : List (List PyVal)) (pattern : Str)
    (regex caseSensitive : Bool) (searchColumnName : Option Str)
    (ignorePatterns : List Str) (headerRowIndices : Option (List Nat)) :
    ∀ r ∈ (search_in_sheet perRec flag k rxCompile ssId ssName sheetName values pattern
        regex caseSensitive searchColumnName ignorePatterns headerRowIndices).recs,
      matches_ignore_value r.searchedValue ignorePatterns = false := by
  intro r hr
  unfold search_in_sheet at hr
  split at hr
  · simp at hr
  · split at hr
    · simp at hr
    · simp only [] at hr
      split at hr
      · simp at hr
      · split at hr
        · exact scanRows_prop _ _ _ _
            (rowRecsAll_not_ignored ssId ssName sheetName _ _ ignorePatterns regex _
              caseSensitive pattern) _ _ _ r hr
        · split at hr
          · split at hr
            · simp at hr
            · exact scanRows_prop _ _ _ _
                (fun i row => rowRecsNamed_not_ignored ssId ssName sheetName _ _
                  ignorePatterns regex _ caseSensitive pattern _ i row) _ _ _ r hr
          · split at hr
            · simp at hr
            · split at hr
              · simp at hr
              · exact scanRows_prop _ _ _ _
                  (fun i row => rowRecsNamed_not_ignored ssId ssName sheetName _ _
                    ignorePatterns regex _ caseSensitive pattern _ i row) _ _ _ r hr

/-- C10.  Ignore patterns are applied to matched cell values, not only to
headers: every record yielded by `search_in_sheet`, in ALL-columns mode
as well as in named-column and strict modes, has a `searchedValue` that
does not match any supplied ignore pattern (with an empty ignore list the
value matcher never matches, so the property is unconditional). -/
theorem search_in_sheet_values_not_ignored (perRec : Bool) (flag : Nat → Bool) (k : Nat)
    (rxCompile : Str → Bool → Except Unit (Str → Bool))
    (ssId ssName sheetName : Str) (values : List (List PyVal)) (pattern : Str)
    (regex caseSensitive : Bool) (searchColumnName : Option Str)
    (ignorePatterns : List Str) (headerRowIndices : Option (List Nat))
    (r : MatchRec)
    (hr : r ∈ (search_in_sheet perRec flag k rxCompile ssId ssName sheetName values
      pattern regex caseSensitive searchColumnName ignorePatterns
      headerRowIndices).recs) :
    matches_ignore_value r.searchedValue ignorePatterns = false :=
  search_in_sheet_records_not_ignored perRec flag k rxCompile ssId ssName sheetName
    values pattern regex caseSensitive searchColumnName ignorePatterns
    headerRowIndices r hr

/-- C10, witness: a concrete strict-mode scan with a nonempty ignore list
still yields the order-number record, whose value matches no pattern. -/
theorem search_in_sheet_values_not_ignored_witness :
    (⟨"id".data, "SS".data, "Arkusz1".data, "A2".data, "38960".data,
      "280.00".data⟩ : MatchRec) ∈
      (search_in_sheet false noStop 0 rxOk "id".data "SS".data "Arkusz1".data
        [[.pstr "Numer zlecenia".data, .pstr "Stawka".data],
         [.pstr "38960".data, .pstr "280.00".data]]
        "38960".data false false none ["zzz".data] none).recs ∧
    matches_ignore_value "38960".data ["zzz".data] = false :=
  ⟨by decide, search_in_sheet_values_not_ignored false noStop 0 rxOk "id".data
    "SS".data "Arkusz1".data
    [[.pstr "Numer zlecenia".data, .pstr "Stawka".data],
     [.pstr "38960".data, .pstr "280.00".data]]
    "38960".data false false none ["zzz".data] none
    ⟨"id".data, "SS".data, "Arkusz1".data, "A2".data, "38960".data, "280.00".data⟩
    (by decide)⟩

/-! ### Lemmas for claim C7: the dict fold equals the declarative view -/

theorem mem_dedupFirstAux (y : Str) :
    ∀ (l seen : List Str), y ∈ dedupFirstAux l seen ↔ y ∈ l ∧ y ∉ seen := by
  intro l
  induction l with
  | nil => intro seen; simp [dedupFirstAux]
  | cons x xs ih =>
    intro seen
    rw [dedupFirstAux]
    by_cases hx : x ∈ seen
    · rw [if_pos hx, ih]
      constructor
      · rintro ⟨hy, hns⟩
        exact ⟨List.mem_cons_of_mem _ hy, hns⟩
      · rintro ⟨hy, hns⟩
        rcases List.mem_cons.mp hy with heq | hmem
        · exact absurd (heq ▸ hx) hns
        · exact ⟨hmem, hns⟩
    · rw [if_neg hx]
      constructor
      · intro hy
        rcases List.mem_cons.mp hy with heq | hmem
        · exact ⟨heq ▸ List.mem_cons_self _ _, heq ▸ hx⟩
        · obtain ⟨h1, h2⟩ := (ih (x :: seen)).mp hmem
          exact ⟨List.mem_cons_of_mem _ h1, fun hc => h2 (List.mem_cons_of_mem _ hc)⟩
      · rintro ⟨hy, hns⟩
        rcases List.mem_cons.mp hy with heq | hmem
        · exact heq ▸ List.mem_cons_self _ _
        · by_cases hyx : y = x
          · exact hyx ▸ List.mem_cons_self _ _
          · exact List.mem_cons_of_mem _ ((ih (x :: seen)).mpr
              ⟨hmem, by simp [hyx, hns]⟩)

theorem nodup_dedupFirstAux :
    ∀ (l seen : List Str), (dedupFirstAux l seen).Nodup := by
  intro l
  induction l with
  | nil => intro seen; simp [dedupFirstAux]
  | cons x xs ih =>
    intro seen
    rw [dedupFirstAux]
    by_cases hx : x ∈ seen
    · rw [if_pos hx]
      exact ih seen
    · rw [if_neg hx]
      refine List.nodup_cons.mpr ⟨?_, ih (x :: seen)⟩
      intro hc
      exact ((mem_dedupFirstAux x xs (x :: seen)).mp hc).2 (List.mem_cons_self _ _)

theorem dedupFirstAux_append_singleton (x : Str) :
    ∀ (l seen : List Str), dedupFirstAux (l ++ [x]) seen =
      if x ∈ l ∨ x ∈ seen then dedupFirstAux l seen
      else dedupFirstAux l seen ++ [x] := by
  intro l
  induction l with
  | nil =>
    intro seen
    simp only [List.nil_append, dedupFirstAux]
    by_cases hx : x ∈ seen
    · simp [hx, dedupFirstAux]
    · simp [hx, dedupFirstAux]
  | cons y ys ih =>
    intro seen
    rw [List.cons_append, dedupFirstAux]
    by_cases hy : y ∈ seen
    · rw [if_pos hy, ih]
      by_cases hxm : x ∈ ys ∨ x ∈ seen
      · rw [if_pos hxm, if_pos (by tauto), dedupFirstAux, if_pos hy]
      · have hxm2 : ¬(x ∈ y :: ys ∨ x ∈ seen) := by
          intro hc
          rcases hc with hc | hc
          · rcases List.mem_cons.mp hc with heq | hmem
            · exact hxm (Or.inr (heq ▸ hy))
            · exact hxm (Or.inl hmem)
          · exact hxm (Or.inr hc)
        rw [if_neg hxm, if_neg hxm2, dedupFirstAux, if_pos hy]
    · rw [if_neg hy, ih]
      by_cases hxm : x ∈ ys ∨ x ∈ y :: seen
      · have hxm2 : x ∈ y :: ys ∨ x ∈ seen := by
          rcases hxm with hc | hc
          · exact Or.inl (List.mem_cons_of_mem _ hc)
          · rcases List.mem_cons.mp hc with heq | hmem
            · exact Or.inl (heq ▸ List.mem_cons_self _ _)
            · exact Or.inr hmem
        rw [if_pos hxm, if_pos hxm2, dedupFirstAux, if_neg hy]
      · have hxm2 : ¬(x ∈ y :: ys ∨ x ∈ seen) := by
          intro hc
          rcases hc with hc | hc
          · rcases List.mem_cons.mp hc with heq | hmem
            · exact hxm (Or.inr (heq ▸ List.mem_cons_self _ _))
            · exact hxm (Or.inl hmem)
          · exact hxm (Or.inr (List.mem_cons_of_mem _ hc))
        rw [if_neg hxm, if_neg hxm2, dedupFirstAux, if_neg hy, List.cons_append]

theorem addOcc_map_mem (g : Str → List (Nat × Str)) (occ : Nat × Str) (key : Str) :
    ∀ keys : List Str, keys.Nodup → key ∈ keys →
      addOcc (keys.map fun k => (k, g k)) key occ
        = keys.map fun k => (k, g k ++ if k = key then [occ] else []) := by
  intro keys
  induction keys with
  | nil => intro _ h; simp at h
  | cons k0 ks ih =>
    intro hnd hmem
    rw [List.map_cons, List.map_cons, addOcc]
    by_cases hk : k0 = key
    · rw [if_pos hk, if_pos hk]
      refine congrArg _ ?_
      apply List.map_congr_left
      intro k hk2
      have : k ≠ key := by
        intro he
        exact (List.nodup_cons.mp hnd).1 (by rwa [hk, ← he])
      simp [this]
    · rw [if_neg hk, if_neg hk, List.append_nil]
      refine congrArg _ ?_
      exact ih (List.nodup_cons.mp hnd).2
        (by rcases List.mem_cons.mp hmem with h | h; exact absurd h.symm hk; exact h)

theorem addOcc_map_not_mem (g : Str → List (Nat × Str)) (occ : Nat × Str) (key : Str) :
    ∀ keys : List Str, key ∉ keys →
      addOcc (keys.map fun k => (k, g k)) key occ
        = (keys.map fun k => (k, g k)) ++ [(key, [occ])] := by
  intro keys
  induction keys with
  | nil => intro _; rfl
  | cons k0 ks ih =>
    intro hmem
    rw [List.map_cons, addOcc]
    have hk : k0 ≠ key := fun he => hmem (he ▸ List.mem_cons_self _ _)
    rw [if_neg hk]
    exact congrArg _ (ih (fun hc => hmem (List.mem_cons_of_mem _ hc)))

theorem foldl_addOcc (kf : Nat × Str → Str) (items : List (Nat × Str)) :
    items.foldl (fun m o => addOcc m (kf o) o) []
      = (dedupFirst (items.map kf)).map fun key =>
          (key, items.filter fun o => kf o = key) := by
  induction items using List.reverseRecOn with
  | nil => rfl
  | append_singleton xs x ih =>
    rw [List.foldl_append, List.foldl_cons, List.foldl_nil, ih]
    rw [List.map_append, List.map_singleton]
    unfold dedupFirst
    rw [dedupFirstAux_append_singleton]
    simp only [List.mem_nil_iff, or_false]
    by_cases hmem : kf x ∈ xs.map kf
    · rw [if_pos hmem]
      rw [addOcc_map_mem _ _ _ _ (nodup_dedupFirstAux _ _)
        ((mem_dedupFirstAux (kf x) (xs.map kf) []).mpr ⟨hmem, by simp⟩)]
      apply List.map_congr_left
      intro k _
      rw [List.filter_append]
      refine congrArg _ ?_
      by_cases hk : kf x = k
      · simp [List.filter, hk]
      · simp [List.filter, hk, Ne.symm hk]
    · rw [if_neg hmem]
      rw [addOcc_map_not_mem _ _ _ _
        (fun hc => hmem ((mem_dedupFirstAux (kf x) (xs.map kf) []).mp hc).1)]
      rw [List.map_append, List.map_singleton]
      refine congrArg₂ _ ?_ ?_
      · apply List.map_congr_left
        intro k hk2
        have hkx : kf x ≠ k := by
          intro he
          exact hmem (he ▸ ((mem_dedupFirstAux k (xs.map kf) []).mp hk2).1)
        rw [List.filter_append]
        simp [List.filter, hkx]
      · have hfx : xs.filter (fun o => kf o = kf x) = [] := by
          rw [List.filter_eq_nil_iff]
          intro o ho hc
          exact hmem (List.mem_map.mpr ⟨o, ho, by simpa using hc⟩)
        rw [List.filter_append, hfx]
        simp [List.filter]

theorem dupColOccs_aux (colIdx : Nat) (normalize : Bool) :
    ∀ (l : List (Nat × List PyVal)) (m : List (Str × List (Nat × Str))),
      l.foldl (fun m p =>
        match get_cell_value_safe p.2 colIdx with
        | none => m
        | some cv =>
          if (pyStrip cv).isEmpty then m
          else addOcc m (dupNormalize normalize cv) (p.1 + 1, cv)) m
      = (l.filterMap fun p =>
          match get_cell_value_safe p.2 colIdx with
          | none => none
          | some cv =>
            if (pyStrip cv).isEmpty then none else some (p.1 + 1, cv)).foldl
          (fun m o => addOcc m (dupNormalize normalize o.2) o) m := by
  intro l
  induction l with
  | nil => intro m; rfl
  | cons p t ih =>
    intro m
    simp only [List.foldl_cons, List.filterMap_cons]
    cases hg : get_cell_value_safe p.2 colIdx with
    | none => exact ih m
    | some cv =>
      by_cases hb : (pyStrip cv).isEmpty
      · simp only [hb, if_true]
        exact ih m
      · simp only [hb, Bool.false_eq_true, if_false, List.foldl_cons]
        exact ih _

theorem dupColOccs_eq_foldl (values : List (List PyVal)) (startRow colIdx : Nat)
    (normalize : Bool) :
    dupColOccs values startRow colIdx normalize
      = (colItems values startRow colIdx).foldl
          (fun m o => addOcc m (dupNormalize normalize o.2) o) [] := by
  unfold dupColOccs colItems
  exact dupColOccs_aux colIdx normalize _ []

theorem dup_col_eq (ssId ssName sheetName cn : Str) (values : List (List PyVal))
    (normalize : Bool) (startRow colIdx : Nat) :
    ((dupColOccs values startRow colIdx normalize).filter
        (fun e => 1 < e.2.length)).map
      (fun e => ({ spreadsheetId := ssId
                   spreadsheetName := ssName
                   sheetName := sheetName
                   columnName := cn
                   value := (e.2.headD (0, [])).2
                   count := e.2.length
                   rows := e.2.map (fun o => o.1)
                   sample_cells := (e.2.take 5).map (fun o => o.2) } : DupGroup))
    = ((dedupFirst ((colItems values startRow colIdx).map
          (fun o => dupNormalize normalize o.2))).filter fun key =>
        1 < ((colItems values startRow colIdx).filter
          (fun o => dupNormalize normalize o.2 = key)).length).map fun key =>
      let occ := (colItems values startRow colIdx).filter
        (fun o => dupNormalize normalize o.2 = key)
      ({ spreadsheetId := ssId
         spreadsheetName := ssName
         sheetName := sheetName
         columnName := cn
         value := (occ.headD (0, [])).2
         count := occ.length
         rows := occ.map (fun o => o.1)
         sample_cells := (occ.take 5).map (fun o => o.2) } : DupGroup) := by
  rw [dupColOccs_eq_foldl, foldl_addOcc (fun o => dupNormalize normalize o.2)]
  rw [List.filter_map, List.map_map]
  rfl

theorem find_duplicates_groups_some (ssId ssName sheetName : Str)
    (values : List (List PyVal)) (name : Str) (normalize : Bool)
    (startRow : Nat) (hr : List PyVal) :
    find_duplicates_groups ssId ssName sheetName values name normalize startRow
        (some hr)
      = if (find_all_column_indices_by_name hr name []).isEmpty then []
        else
          (find_all_column_indices_by_name hr name []).flatMap fun colIdx =>
            ((dupColOccs values startRow colIdx normalize).filter
                (fun e => 1 < e.2.length)).map fun e =>
              { spreadsheetId := ssId
                spreadsheetName := ssName
                sheetName := sheetName
                columnName :=
                  if 1 < (find_all_column_indices_by_name hr name []).length then
                    name ++ " (kolumna ".data ++ col_index_to_a1 colIdx ++ ")".data
                  else name
                value := (e.2.headD (0, [])).2
                count := e.2.length
                rows := e.2.map (fun o => o.1)
                sample_cells := (e.2.take 5).map (fun o => o.2) } := rfl

theorem find_duplicates_groups_claim_some (ssId ssName sheetName : Str)
    (values : List (List PyVal)) (name : Str) (normalize : Bool)
    (startRow : Nat) (hr : List PyVal) :
    find_duplicates_groups_claim ssId ssName sheetName values name normalize startRow
        (some hr)
      = if (find_all_column_indices_by_name hr name []).isEmpty then []
        else
          (find_all_column_indices_by_name hr name []).flatMap fun colIdx =>
            ((dedupFirst ((colItems values startRow colIdx).map
                (fun o => dupNormalize normalize o.2))).filter fun key =>
              1 < ((colItems values startRow colIdx).filter
                (fun o => dupNormalize normalize o.2 = key)).length).map fun key =>
              let occ := (colItems values startRow colIdx).filter
                (fun o => dupNormalize normalize o.2 = key)
              { spreadsheetId := ssId
                spreadsheetName := ssName
                sheetName := sheetName
                columnName :=
                  if 1 < (find_all_column_indices_by_name hr name []).length then
                    name ++ " (kolumna ".data ++ col_index_to_a1 colIdx ++ ")".data
                  else name
                value := (occ.headD (0, [])).2
                count := occ.length
                rows := occ.map (fun o => o.1)
                sample_cells := (occ.take 5).map (fun o => o.2) } := rfl

/-- C7.  Duplicate detection is, group for group, the declarative reading
of the claim: per resolved physical column, independently, one group per
normalised value occurring in at least two data rows of that column, the
group carrying the 1-based rows of all its occurrences, their count, and
at most the first five raw occurrences as samples; and the concrete
Scenario D grid produces exactly one group, for normalised value
`"12345"`, with rows `[2, 3, 5]` and count `3`. -/
theorem find_duplicates_in_sheet_eq_claim :
    (∀ (ssId ssName sheetName : Str) (values : List (List PyVal))
      (name : Str) (normalize : Bool),
      find_duplicates_in_sheet ssId ssName sheetName values name normalize
        = find_duplicates_in_sheet_claim ssId ssName sheetName values name normalize) ∧
    find_duplicates_in_sheet "id".data "SS".data "Arkusz1".data
      [[.pstr "Zlecenie".data, .pstr "Uwagi".data],
       [.pstr "12345".data, .pstr "a".data],
       [.pstr "12345".data, .pstr "b".data],
       [.pstr "67890".data, .pstr "c".data],
       [.pstr "12345".data, .pstr "d".data]]
      "Zlecenie".data true
    = [{ spreadsheetId := "id".data, spreadsheetName := "SS".data,
         sheetName := "Arkusz1".data, columnName := "Zlecenie".data,
         value := "12345".data, count := 3, rows := [2, 3, 5],
         sample_cells := ["12345".data, "12345".data, "12345".data] }] := by
  refine ⟨?_, by decide⟩
  intro ssId ssName sheetName values name normalize
  unfold find_duplicates_in_sheet find_duplicates_in_sheet_claim
  by_cases hv : values.isEmpty
  · rw [if_pos hv, if_pos hv]
  · rw [if_neg hv, if_neg hv]
    cases hh : (detect_header_row values (some name) none).1 with
    | none => rfl
    | some hr =>
      show find_duplicates_groups ssId ssName sheetName values name normalize
          (detect_header_row values (some name) none).2 (some hr)
        = find_duplicates_groups_claim ssId ssName sheetName values name normalize
          (detect_header_row values (some name) none).2 (some hr)
      rw [find_duplicates_groups_some, find_duplicates_groups_claim_some]
      by_cases hc : (find_all_column_indices_by_name hr name []).isEmpty
      · rw [if_pos hc, if_pos hc]
      · rw [if_neg hc, if_neg hc]
        congr 1
        funext colIdx
        exact dup_col_eq ssId ssName sheetName _ values normalize _ colIdx

/-! ### Cancellation (claim C6) -/

/-- C6, counterexample.  A monotone cancellation flag set and observed
during the scan (the run performs three checks and the third, at index 2,
reads true) can still yield exactly the records of the uncancelled run —
here the cancellation arrives at the last data row, which would not have
matched anyway — so the yielded records are a prefix but not a strict
prefix of the uncancelled run's records. -/
theorem cancellation_not_strict :
    (search_in_sheet false stopAt2 0 rxOk "id".data "SS".data "A1".data
        [[.pstr "Zlecenie".data, .pstr "Uwagi".data],
         [.pstr "38960".data, .pstr "x".data],
         [.pstr "nic".data, .pstr "y".data]]
        "38960".data false false (some "Zlecenie".data) [] none).recs
      = (search_in_sheet false noStop 0 rxOk "id".data "SS".data "A1".data
          [[.pstr "Zlecenie".data, .pstr "Uwagi".data],
           [.pstr "38960".data, .pstr "x".data],
           [.pstr "nic".data, .pstr "y".data]]
          "38960".data false false (some "Zlecenie".data) [] none).recs ∧
    (search_in_sheet false stopAt2 0 rxOk "id".data "SS".data "A1".data
        [[.pstr "Zlecenie".data, .pstr "Uwagi".data],
         [.pstr "38960".data, .pstr "x".data],
         [.pstr "nic".data, .pstr "y".data]]
        "38960".data false false (some "Zlecenie".data) [] none).k = 3 ∧
    stopAt2 2 = true ∧
    (search_in_sheet false stopAt2 0 rxOk "id".data "SS".data "A1".data
        [[.pstr "Zlecenie".data, .pstr "Uwagi".data],
         [.pstr "38960".data, .pstr "x".data],
         [.pstr "nic".data, .pstr "y".data]]
        "38960".data false false (some "Zlecenie".data) [] none).recs.length = 1 := by
  decide

theorem prefix_cons₂ {a : MatchRec} {l₁ l₂ : List MatchRec} (h : l₁ <+: l₂) :
    a :: l₁ <+: a :: l₂ := by
  obtain ⟨t, ht⟩ := h
  exact ⟨t, by simp [← ht]⟩

theorem prefix_append_left {l₁ l₂ : List MatchRec} (l : List MatchRec)
    (h : l₁ <+: l₂) : l ++ l₁ <+: l ++ l₂ := by
  obtain ⟨t, ht⟩ := h
  exact ⟨t, by simp [← ht]⟩

theorem prefix_append_right {l₁ l₂ : List MatchRec} (t : List MatchRec)
    (h : l₁ <+: l₂) : l₁ <+: l₂ ++ t := by
  obtain ⟨u, hu⟩ := h
  exact ⟨u ++ t, by simp [← hu]⟩

theorem cprefix_append_left {l₁ l₂ : List ApiCall} (l : List ApiCall)
    (h : l₁ <+: l₂) : l ++ l₁ <+: l ++ l₂ := by
  obtain ⟨t, ht⟩ := h
  exact ⟨t, by simp [← ht]⟩

theorem cprefix_append_right {l₁ l₂ : List ApiCall} (t : List ApiCall)
    (h : l₁ <+: l₂) : l₁ <+: l₂ ++ t := by
  obtain ⟨u, hu⟩ := h
  exact ⟨u ++ t, by simp [← hu]⟩

theorem emitLoop_noStop (rs : List MatchRec) :
    ∀ k, emitLoop noStop k rs = (rs, k + rs.length, false) := by
  induction rs with
  | nil => intro k; simp [emitLoop]
  | cons r rest ih =>
    intro k
    rw [emitLoop, if_neg (by simp [noStop]), ih (k + 1)]
    simp
    omega

theorem scanRows_noStop_state (perRec : Bool)
    (rowRecs : Nat → List PyVal → List MatchRec) (rows : List (List PyVal)) :
    ∀ k rIdx, (scanRows perRec noStop k rowRecs rIdx rows).2.2 = false ∧
      k ≤ (scanRows perRec noStop k rowRecs rIdx rows).2.1 := by
  induction rows with
  | nil => intro k rIdx; simp [scanRows_nil]
  | cons row rest ih =>
    intro k rIdx
    rw [scanRows_cons, if_neg (by simp [noStop])]
    simp only []
    cases perRec with
    | true =>
      rw [if_pos rfl, emitLoop_noStop]
      simp only []
      rw [if_neg (by simp)]
      obtain ⟨h1, h2⟩ := ih (k + 1 + (rowRecs rIdx row).length) (rIdx + 1)
      constructor
      · show (scanRows true noStop (k + 1 + (rowRecs rIdx row).length) rowRecs
          (rIdx + 1) rest).2.2 = false
        exact h1
      · show k ≤ (scanRows true noStop (k + 1 + (rowRecs rIdx row).length) rowRecs
          (rIdx + 1) rest).2.1
        omega
    | false =>
      rw [if_neg (by simp)]
      simp only []
      rw [if_neg (by simp)]
      obtain ⟨h1, h2⟩ := ih (k + 1) (rIdx + 1)
      constructor
      · show (scanRows false noStop (k + 1) rowRecs (rIdx + 1) rest).2.2 = false
        exact h1
      · show k ≤ (scanRows false noStop (k + 1) rowRecs (rIdx + 1) rest).2.1
        omega

theorem scanRows_false_noStop_k (rowRecs : Nat → List PyVal → List MatchRec)
    (rows : List (List PyVal)) :
    ∀ k rIdx, (scanRows false noStop k rowRecs rIdx rows).2.1 = k + rows.length := by
  induction rows with
  | nil => intro k rIdx; simp [scanRows_nil]
  | cons row rest ih =>
    intro k rIdx
    rw [scanRows_cons, if_neg (by simp [noStop])]
    show (scanRows false noStop (k + 1) rowRecs (rIdx + 1) rest).2.1
      = k + (row :: rest).length
    rw [ih (k + 1) (rIdx + 1)]
    simp only [List.length_cons]
    omega

theorem emitLoop_inv (flag : Nat → Bool) (rs : List MatchRec) :
    ∀ k, emitLoop flag k rs = (rs, k + rs.length, false) ∨
      ((emitLoop flag k rs).1 <+: rs ∧ (emitLoop flag k rs).2.2 = true ∧
        k + 1 ≤ (emitLoop flag k rs).2.1 ∧
        flag ((emitLoop flag k rs).2.1 - 1) = true) := by
  induction rs with
  | nil => intro k; left; simp [emitLoop]
  | cons r rest ih =>
    intro k
    by_cases hf : flag k = true
    · right
      rw [emitLoop, if_pos hf]
      exact ⟨⟨r :: rest, rfl⟩, rfl, le_refl _, by simpa using hf⟩
    · rw [emitLoop, if_neg hf]
      rcases ih (k + 1) with heq | ⟨hpre, hhs, hk, hfl⟩
      · left
        rw [heq]
        simp only [List.length_cons, Prod.mk.injEq, true_and, and_true]
        omega
      · right
        refine ⟨prefix_cons₂ hpre, hhs, ?_, hfl⟩
        show k + 1 ≤ (emitLoop flag (k + 1) rest).2.1
        omega

theorem prefix_nil_any (l : List MatchRec) : ([] : List MatchRec) <+: l := ⟨l, rfl⟩

theorem cprefix_nil_any (l : List ApiCall) : ([] : List ApiCall) <+: l := ⟨l, rfl⟩

theorem emitLoop_k_le (flag : Nat → Bool) (rs : List MatchRec) :
    ∀ k, k ≤ (emitLoop flag k rs).2.1 := by
  induction rs with
  | nil => intro k; exact le_refl _
  | cons r rest ih =>
    intro k
    by_cases hf : flag k = true
    · rw [emitLoop, if_pos hf]
      show k ≤ k + 1
      omega
    · rw [emitLoop, if_neg hf]
      show k ≤ (emitLoop flag (k + 1) rest).2.1
      have := ih (k + 1)
      omega

theorem scanRows_cons_stop (perRec : Bool) (flag : Nat → Bool) (k : Nat)
    (f : Nat → List PyVal → List MatchRec) (rIdx : Nat) (row : List PyVal)
    (rest : List (List PyVal)) (hf : flag k = true) :
    scanRows perRec flag k f rIdx (row :: rest) = ([], k + 1, false) := by
  rw [scanRows_cons, if_pos hf]

theorem scanRows_cons_noemit (flag : Nat → Bool) (k : Nat)
    (f : Nat → List PyVal → List MatchRec) (rIdx : Nat) (row : List PyVal)
    (rest : List (List PyVal)) (hf : flag k = false) :
    scanRows false flag k f rIdx (row :: rest) =
      (f rIdx row ++ (scanRows false flag (k + 1) f (rIdx + 1) rest).1,
       (scanRows false flag (k + 1) f (rIdx + 1) rest).2.1,
       (scanRows false flag (k + 1) f (rIdx + 1) rest).2.2) := by
  rw [scanRows_cons, if_neg (by simp [hf])]
  rfl

theorem scanRows_cons_hs (flag : Nat → Bool) (k : Nat)
    (f : Nat → List PyVal → List MatchRec) (rIdx : Nat) (row : List PyVal)
    (rest : List (List PyVal)) (hf : flag k = false)
    (he : (emitLoop flag (k + 1) (f rIdx row)).2.2 = true) :
    scanRows true flag k f rIdx (row :: rest) = emitLoop flag (k + 1) (f rIdx row) := by
  rw [scanRows_cons, if_neg (by simp [hf])]
  show (if (emitLoop flag (k + 1) (f rIdx row)).2.2 = true
      then emitLoop flag (k + 1) (f rIdx row)
      else
        ((emitLoop flag (k + 1) (f rIdx row)).1 ++
            (scanRows true flag (emitLoop flag (k + 1) (f rIdx row)).2.1 f (rIdx + 1) rest).1,
          (scanRows true flag (emitLoop flag (k + 1) (f rIdx row)).2.1 f (rIdx + 1) rest).2.1,
          (scanRows true flag (emitLoop flag (k + 1) (f rIdx row)).2.1 f (rIdx + 1) rest).2.2))
      = emitLoop flag (k + 1) (f rIdx row)
  rw [if_pos he]

theorem scanRows_cons_go (flag : Nat → Bool) (k : Nat)
    (f : Nat → List PyVal → List MatchRec) (rIdx : Nat) (row : List PyVal)
    (rest : List (List PyVal)) (hf : flag k = false)
    (he : (emitLoop flag (k + 1) (f rIdx row)).2.2 = false) :
    scanRows true flag k f rIdx (row :: rest) =
      ((emitLoop flag (k + 1) (f rIdx row)).1 ++
          (scanRows true flag (emitLoop flag (k + 1) (f rIdx row)).2.1 f (rIdx + 1) rest).1,
        (scanRows true flag (emitLoop flag (k + 1) (f rIdx row)).2.1 f (rIdx + 1) rest).2.1,
        (scanRows true flag (emitLoop flag (k + 1) (f rIdx row)).2.1 f (rIdx + 1) rest).2.2) := by
  rw [scanRows_cons, if_neg (by simp [hf])]
  show (if (emitLoop flag (k + 1) (f rIdx row)).2.2 = true
      then emitLoop flag (k + 1) (f rIdx row)
      else
        ((emitLoop flag (k + 1) (f rIdx row)).1 ++
            (scanRows true flag (emitLoop flag (k + 1) (f rIdx row)).2.1 f (rIdx + 1) rest).1,
          (scanRows true flag (emitLoop flag (k + 1) (f rIdx row)).2.1 f (rIdx + 1) rest).2.1,
          (scanRows true flag (emitLoop flag (k + 1) (f rIdx row)).2.1 f (rIdx + 1) rest).2.2))
      = _
  rw [if_neg (by simp [he])]

theorem scanRows_k_le (perRec : Bool) (flag : Nat → Bool)
    (f : Nat → List PyVal → List MatchRec) (rows : List (List PyVal)) :
    ∀ k rIdx, k ≤ (scanRows perRec flag k f rIdx rows).2.1 := by
  induction rows with
  | nil => intro k rIdx; exact le_refl _
  | cons row rest ih =>
    intro k rIdx
    by_cases hf : flag k = true
    · rw [scanRows_cons_stop _ _ _ _ _ _ _ hf]
      show k ≤ k + 1
      omega
    · have hf' : flag k = false := by simpa using hf
      cases perRec with
      | false =>
        rw [scanRows_cons_noemit _ _ _ _ _ _ hf']
        show k ≤ (scanRows false flag (k + 1) f (rIdx + 1) rest).2.1
        have := ih (k + 1) (rIdx + 1)
        omega
      | true =>
        by_cases he : (emitLoop flag (k + 1) (f rIdx row)).2.2 = true
        · rw [scanRows_cons_hs _ _ _ _ _ _ hf' he]
          have := emitLoop_k_le flag (f rIdx row) (k + 1)
          omega
        · have he' : (emitLoop flag (k + 1) (f rIdx row)).2.2 = false := by simpa using he
          rw [scanRows_cons_go _ _ _ _ _ _ hf' he']
          show k ≤ (scanRows true flag
            (emitLoop flag (k + 1) (f rIdx row)).2.1 f (rIdx + 1) rest).2.1
          have h1 := emitLoop_k_le flag (f rIdx row) (k + 1)
          have h2 := ih (emitLoop flag (k + 1) (f rIdx row)).2.1 (rIdx + 1)
          omega

theorem scanRows_inv (flag : Nat → Bool)
    (perRec : Bool) (f : Nat → List PyVal → List MatchRec) (rows : List (List PyVal)) :
    ∀ k rIdx,
      scanRows perRec flag k f rIdx rows = scanRows perRec noStop k f rIdx rows ∨
      ((scanRows perRec flag k f rIdx rows).1 <+: (scanRows perRec noStop k f rIdx rows).1 ∧
        k + 1 ≤ (scanRows perRec flag k f rIdx rows).2.1 ∧
        flag ((scanRows perRec flag k f rIdx rows).2.1 - 1) = true) := by
  induction rows with
  | nil => intro k rIdx; left; rfl
  | cons row rest ih =>
    intro k rIdx
    by_cases hf : flag k = true
    · right
      rw [scanRows_cons_stop _ _ _ _ _ _ _ hf]
      exact ⟨prefix_nil_any _, le_refl _, by simpa using hf⟩
    · have hf' : flag k = false := by simpa using hf
      cases perRec with
      | false =>
        rw [scanRows_cons_noemit _ _ _ _ _ _ hf',
          scanRows_cons_noemit noStop _ _ _ _ _ rfl]
        rcases ih (k + 1) (rIdx + 1) with heq | ⟨hpre, hk, hfl⟩
        · left
          rw [heq]
        · right
          refine ⟨prefix_append_left _ hpre, ?_, hfl⟩
          show k + 1 ≤ (scanRows false flag (k + 1) f (rIdx + 1) rest).2.1
          omega
      | true =>
        rcases emitLoop_inv flag (f rIdx row) (k + 1) with heq | ⟨hepre, hehs, hek, hefl⟩
        · have hss : (emitLoop flag (k + 1) (f rIdx row)).2.2 = false := by rw [heq]
          rw [scanRows_cons_go flag _ _ _ _ _ hf' hss,
            scanRows_cons_go noStop _ _ _ _ _ rfl (by rw [emitLoop_noStop]),
            heq, emitLoop_noStop]
          rcases ih (k + 1 + (f rIdx row).length) (rIdx + 1) with heq2 | ⟨hpre, hk, hfl⟩
          · left
            rw [heq2]
          · right
            refine ⟨prefix_append_left _ hpre, ?_, hfl⟩
            show k + 1 ≤
              (scanRows true flag (k + 1 + (f rIdx row).length) f (rIdx + 1) rest).2.1
            omega
        · rw [scanRows_cons_hs flag _ _ _ _ _ hf' hehs,
            scanRows_cons_go noStop _ _ _ _ _ rfl (by rw [emitLoop_noStop]),
            emitLoop_noStop]
          right
          refine ⟨prefix_append_right _ hepre, ?_, hefl⟩
          omega

theorem scanPack_inv (flag : Nat → Bool) (perRec : Bool)
    (g : Nat → List PyVal → List MatchRec) (sr : Nat) (rows : List (List PyVal))
    (cs : List ApiCall) (k : Nat) :
    (⟨(scanRows perRec flag (k + 1) g sr rows).1,
        (scanRows perRec flag (k + 1) g sr rows).2.1, cs,
        (scanRows perRec flag (k + 1) g sr rows).2.2, false⟩ : ScanOut)
      = ⟨(scanRows perRec noStop (k + 1) g sr rows).1,
          (scanRows perRec noStop (k + 1) g sr rows).2.1, cs,
          (scanRows perRec noStop (k + 1) g sr rows).2.2, false⟩ ∨
    ((scanRows perRec flag (k + 1) g sr rows).1 <+:
        (scanRows perRec noStop (k + 1) g sr rows).1 ∧
      cs <+: cs ∧
      k + 1 ≤ (scanRows perRec flag (k + 1) g sr rows).2.1 ∧
      flag ((scanRows perRec flag (k + 1) g sr rows).2.1 - 1) = true) := by
  rcases scanRows_inv flag perRec g rows (k + 1) sr with heq | ⟨hpre, hk, hfl⟩
  · left
    rw [heq]
  · right
    exact ⟨hpre, List.prefix_rfl, by omega, hfl⟩

theorem scanPack_k_le (flag : Nat → Bool) (perRec : Bool)
    (g : Nat → List PyVal → List MatchRec) (sr : Nat) (rows : List (List PyVal))
    (k : Nat) : k ≤ (scanRows perRec flag (k + 1) g sr rows).2.1 :=
  le_trans (Nat.le_succ k) (scanRows_k_le perRec flag g rows (k + 1) sr)

theorem search_in_sheet_inv (flag : Nat → Bool) (perRec : Bool) (k : Nat)
    (rxCompile : Str → Bool → Except Unit (Str → Bool))
    (ssId ssName sheetName : Str) (values : List (List PyVal)) (pattern : Str)
    (regex caseSensitive : Bool) (searchColumnName : Option Str)
    (ignorePatterns : List Str) (headerRowIndices : Option (List Nat)) :
    search_in_sheet perRec flag k rxCompile ssId ssName sheetName values pattern
        regex caseSensitive searchColumnName ignorePatterns headerRowIndices
      = search_in_sheet perRec noStop k rxCompile ssId ssName sheetName values pattern
        regex caseSensitive searchColumnName ignorePatterns headerRowIndices ∨
    ((search_in_sheet perRec flag k rxCompile ssId ssName sheetName values pattern
        regex caseSensitive searchColumnName ignorePatterns headerRowIndices).recs <+:
      (search_in_sheet perRec noStop k rxCompile ssId ssName sheetName values pattern
        regex caseSensitive searchColumnName ignorePatterns headerRowIndices).recs ∧
      (search_in_sheet perRec flag k rxCompile ssId ssName sheetName values pattern
        regex caseSensitive searchColumnName ignorePatterns headerRowIndices).calls <+:
      (search_in_sheet perRec noStop k rxCompile ssId ssName sheetName values pattern
        regex caseSensitive searchColumnName ignorePatterns headerRowIndices).calls ∧
      k + 1 ≤ (search_in_sheet perRec flag k rxCompile ssId ssName sheetName values pattern
        regex caseSensitive searchColumnName ignorePatterns headerRowIndices).k ∧
      flag ((search_in_sheet perRec flag k rxCompile ssId ssName sheetName values pattern
        regex caseSensitive searchColumnName ignorePatterns headerRowIndices).k - 1)
        = true) := by
  by_cases hf : flag k = true
  · right
    unfold search_in_sheet
    rw [if_pos hf, if_neg (show ¬ noStop k = true by simp [noStop])]
    refine ⟨prefix_nil_any _, cprefix_nil_any _, ?_, ?_⟩
    · show k + 1 ≤ k + 1
      omega
    · show flag (k + 1 - 1) = true
      simpa using hf
  · unfold search_in_sheet
    rw [if_neg hf, if_neg (show ¬ noStop k = true by simp [noStop])]
    split
    · left
      rfl
    · split
      · left
        rfl
      · split
        · exact scanPack_inv flag perRec _ _ _ _ k
        · split
          · simp only []
            split
            · left
              rfl
            · exact scanPack_inv flag perRec _ _ _ _ k
          · simp only []
            split
            · left
              rfl
            · split
              · left
                rfl
              · exact scanPack_inv flag perRec _ _ _ _ k

theorem search_in_sheet_k_le (flag : Nat → Bool) (perRec : Bool) (k : Nat)
    (rxCompile : Str → Bool → Except Unit (Str → Bool))
    (ssId ssName sheetName : Str) (values : List (List PyVal)) (pattern : Str)
    (regex caseSensitive : Bool) (searchColumnName : Option Str)
    (ignorePatterns : List Str) (headerRowIndices : Option (List Nat)) :
    k ≤ (search_in_sheet perRec flag k rxCompile ssId ssName sheetName values pattern
      regex caseSensitive searchColumnName ignorePatterns headerRowIndices).k := by
  by_cases hf : flag k = true
  · unfold search_in_sheet
    rw [if_pos hf]
    show k ≤ k + 1
    omega
  · unfold search_in_sheet
    rw [if_neg hf]
    split
    · show k ≤ k + 1
      omega
    · split
      · show k ≤ k + 1
        omega
      · split
        · exact scanPack_k_le flag perRec _ _ _ k
        · split
          · simp only []
            split
            · show k ≤ k + 1
              omega
            · exact scanPack_k_le flag perRec _ _ _ k
          · simp only []
            split
            · show k ≤ k + 1
              omega
            · split
              · show k ≤ k + 1
                omega
              · exact scanPack_k_le flag perRec _ _ _ k

theorem sheetsLoop_cons (perRec : Bool) (flag : Nat → Bool) (k : Nat)
    (rxCompile : Str → Bool → Except Unit (Str → Bool)) (ssId ssName : Str)
    (valsOf : Str → List (List PyVal)) (pattern : Str) (regex caseSensitive : Bool)
    (searchColumnName : Option Str) (ignorePatterns : List Str)
    (headerRowIndices : Option (List Nat)) (sn : Str) (rest : List Str) :
    sheetsLoop perRec flag k rxCompile ssId ssName valsOf pattern regex caseSensitive
        searchColumnName ignorePatterns headerRowIndices (sn :: rest) =
      if flag k then ⟨[], k + 1, [], false, false⟩
      else
        if (search_in_sheet perRec flag (k + 1) rxCompile ssId ssName sn (valsOf sn)
              pattern regex caseSensitive searchColumnName ignorePatterns
              headerRowIndices).err
            || (search_in_sheet perRec flag (k + 1) rxCompile ssId ssName sn (valsOf sn)
                pattern regex caseSensitive searchColumnName ignorePatterns
                headerRowIndices).hardStop
        then search_in_sheet perRec flag (k + 1) rxCompile ssId ssName sn (valsOf sn)
          pattern regex caseSensitive searchColumnName ignorePatterns headerRowIndices
        else
          ⟨(search_in_sheet perRec flag (k + 1) rxCompile ssId ssName sn (valsOf sn)
                pattern regex caseSensitive searchColumnName ignorePatterns
                headerRowIndices).recs ++
              (sheetsLoop perRec flag
                (search_in_sheet perRec flag (k + 1) rxCompile ssId ssName sn (valsOf sn)
                  pattern regex caseSensitive searchColumnName ignorePatterns
                  headerRowIndices).k rxCompile ssId ssName valsOf pattern regex
                caseSensitive searchColumnName ignorePatterns headerRowIndices rest).recs,
            (sheetsLoop perRec flag
              (search_in_sheet perRec flag (k + 1) rxCompile ssId ssName sn (valsOf sn)
                pattern regex caseSensitive searchColumnName ignorePatterns
                headerRowIndices).k rxCompile ssId ssName valsOf pattern regex
              caseSensitive searchColumnName ignorePatterns headerRowIndices rest).k,
            (search_in_sheet perRec flag (k + 1) rxCompile ssId ssName sn (valsOf sn)
                pattern regex caseSensitive searchColumnName ignorePatterns
                headerRowIndices).calls ++
              (sheetsLoop perRec flag
                (search_in_sheet perRec flag (k + 1) rxCompile ssId ssName sn (valsOf sn)
                  pattern regex caseSensitive searchColumnName ignorePatterns
                  headerRowIndices).k rxCompile ssId ssName valsOf pattern regex
                caseSensitive searchColumnName ignorePatterns headerRowIndices rest).calls,
            (sheetsLoop perRec flag
              (search_in_sheet perRec flag (k + 1) rxCompile ssId ssName sn (valsOf sn)
                pattern regex caseSensitive searchColumnName ignorePatterns
                headerRowIndices).k rxCompile ssId ssName valsOf pattern regex
              caseSensitive searchColumnName ignorePatterns headerRowIndices rest).hardStop,
            (sheetsLoop perRec flag
              (search_in_sheet perRec flag (k + 1) rxCompile ssId ssName sn (valsOf sn)
                pattern regex caseSensitive searchColumnName ignorePatterns
                headerRowIndices).k rxCompile ssId ssName valsOf pattern regex
              caseSensitive searchColumnName ignorePatterns headerRowIndices rest).err⟩ := rfl

theorem sheetsLoop_dead (perRec : Bool) (flag : Nat → Bool) (k : Nat)
    (rxCompile : Str → Bool → Except Unit (Str → Bool)) (ssId ssName : Str)
    (valsOf : Str → List (List PyVal)) (pattern : Str) (regex caseSensitive : Bool)
    (searchColumnName : Option Str) (ignorePatterns : List Str)
    (headerRowIndices : Option (List Nat)) (ss : List Str) (hf : flag k = true) :
    (sheetsLoop perRec flag k rxCompile ssId ssName valsOf pattern regex caseSensitive
        searchColumnName ignorePatterns headerRowIndices ss).recs = [] ∧
    (sheetsLoop perRec flag k rxCompile ssId ssName valsOf pattern regex caseSensitive
        searchColumnName ignorePatterns headerRowIndices ss).calls = [] ∧
    (sheetsLoop perRec flag k rxCompile ssId ssName valsOf pattern regex caseSensitive
        searchColumnName ignorePatterns headerRowIndices ss).hardStop = false ∧
    (sheetsLoop perRec flag k rxCompile ssId ssName valsOf pattern regex caseSensitive
        searchColumnName ignorePatterns headerRowIndices ss).err = false ∧
    k ≤ (sheetsLoop perRec flag k rxCompile ssId ssName valsOf pattern regex caseSensitive
        searchColumnName ignorePatterns headerRowIndices ss).k ∧
    (sheetsLoop perRec flag k rxCompile ssId ssName valsOf pattern regex caseSensitive
        searchColumnName ignorePatterns headerRowIndices ss).k ≤ k + 1 := by
  cases ss with
  | nil => exact ⟨rfl, rfl, rfl, rfl, le_refl _, Nat.le_succ _⟩
  | cons sn rest =>
    rw [sheetsLoop_cons, if_pos hf]
    exact ⟨rfl, rfl, rfl, rfl, Nat.le_succ _, le_refl _⟩

theorem sheetsLoop_k_le (perRec : Bool) (flag : Nat → Bool)
    (rxCompile : Str → Bool → Except Unit (Str → Bool)) (ssId ssName : Str)
    (valsOf : Str → List (List PyVal)) (pattern : Str) (regex caseSensitive : Bool)
    (searchColumnName : Option Str) (ignorePatterns : List Str)
    (headerRowIndices : Option (List Nat)) (ss : List Str) :
    ∀ k, k ≤ (sheetsLoop perRec flag k rxCompile ssId ssName valsOf pattern regex
      caseSensitive searchColumnName ignorePatterns headerRowIndices ss).k := by
  induction ss with
  | nil => intro k; exact le_refl _
  | cons sn rest ih =>
    intro k
    by_cases hf : flag k = true
    · rw [sheetsLoop_cons, if_pos hf]
      show k ≤ k + 1
      omega
    · rw [sheetsLoop_cons, if_neg hf]
      by_cases he : ((search_in_sheet perRec flag (k + 1) rxCompile ssId ssName sn
            (valsOf sn) pattern regex caseSensitive searchColumnName ignorePatterns
            headerRowIndices).err
          || (search_in_sheet perRec flag (k + 1) rxCompile ssId ssName sn (valsOf sn)
              pattern regex caseSensitive searchColumnName ignorePatterns
              headerRowIndices).hardStop) = true
      · rw [if_pos he]
        exact le_trans (Nat.le_succ k) (search_in_sheet_k_le flag perRec (k + 1)
          rxCompile ssId ssName sn (valsOf sn) pattern regex caseSensitive
          searchColumnName ignorePatterns headerRowIndices)
      · rw [if_neg he]
        exact le_trans (le_trans (Nat.le_succ k) (search_in_sheet_k_le flag perRec
          (k + 1) rxCompile ssId ssName sn (valsOf sn) pattern regex caseSensitive
          searchColumnName ignorePatterns headerRowIndices)) (ih _)

theorem sheetsLoop_inv (flag : Nat → Bool)
    (hm : ∀ i j, i ≤ j → flag i = true → flag j = true) (perRec : Bool)
    (rxCompile : Str → Bool → Except Unit (Str → Bool)) (ssId ssName : Str)
    (valsOf : Str → List (List PyVal)) (pattern : Str) (regex caseSensitive : Bool)
    (searchColumnName : Option Str) (ignorePatterns : List Str)
    (headerRowIndices : Option (List Nat)) (ss : List Str) :
    ∀ k,
      sheetsLoop perRec flag k rxCompile ssId ssName valsOf pattern regex caseSensitive
          searchColumnName ignorePatterns headerRowIndices ss
        = sheetsLoop perRec noStop k rxCompile ssId ssName valsOf pattern regex
          caseSensitive searchColumnName ignorePatterns headerRowIndices ss ∨
      ((sheetsLoop perRec flag k rxCompile ssId ssName valsOf pattern regex caseSensitive
          searchColumnName ignorePatterns headerRowIndices ss).recs <+:
        (sheetsLoop perRec noStop k rxCompile ssId ssName valsOf pattern regex
          caseSensitive searchColumnName ignorePatterns headerRowIndices ss).recs ∧
        (sheetsLoop perRec flag k rxCompile ssId ssName valsOf pattern regex caseSensitive
          searchColumnName ignorePatterns headerRowIndices ss).calls <+:
        (sheetsLoop perRec noStop k rxCompile ssId ssName valsOf pattern regex
          caseSensitive searchColumnName ignorePatterns headerRowIndices ss).calls ∧
        k + 1 ≤ (sheetsLoop perRec flag k rxCompile ssId ssName valsOf pattern regex
          caseSensitive searchColumnName ignorePatterns headerRowIndices ss).k ∧
        flag ((sheetsLoop perRec flag k rxCompile ssId ssName valsOf pattern regex
          caseSensitive searchColumnName ignorePatterns headerRowIndices ss).k - 1)
          = true) := by
  induction ss with
  | nil => intro k; left; rfl
  | cons sn rest ih =>
    intro k
    by_cases hf : flag k = true
    · right
      rw [sheetsLoop_cons perRec flag k rxCompile ssId ssName valsOf pattern regex
        caseSensitive searchColumnName ignorePatterns headerRowIndices sn rest, if_pos hf]
      refine ⟨prefix_nil_any _, cprefix_nil_any _, le_refl _, ?_⟩
      show flag (k + 1 - 1) = true
      simpa using hf
    · rw [sheetsLoop_cons perRec flag k rxCompile ssId ssName valsOf pattern regex
        caseSensitive searchColumnName ignorePatterns headerRowIndices sn rest, if_neg hf,
        sheetsLoop_cons perRec noStop k rxCompile ssId ssName valsOf pattern regex
        caseSensitive searchColumnName ignorePatterns headerRowIndices sn rest, if_neg (show ¬ noStop k = true by simp [noStop])]
      rcases search_in_sheet_inv flag perRec (k + 1) rxCompile ssId ssName sn
          (valsOf sn) pattern regex caseSensitive searchColumnName ignorePatterns
          headerRowIndices with hoeq | ⟨hor, hoc, hok, hofl⟩
      · by_cases he : ((search_in_sheet perRec flag (k + 1) rxCompile ssId ssName sn (valsOf sn)
          pattern regex caseSensitive searchColumnName ignorePatterns headerRowIndices).err || (search_in_sheet perRec flag (k + 1) rxCompile ssId ssName sn (valsOf sn)
          pattern regex caseSensitive searchColumnName ignorePatterns headerRowIndices).hardStop) = true
        · rw [if_pos he, if_pos (show ((search_in_sheet perRec noStop (k + 1) rxCompile ssId ssName sn (valsOf sn)
          pattern regex caseSensitive searchColumnName ignorePatterns headerRowIndices).err || (search_in_sheet perRec noStop (k + 1) rxCompile ssId ssName sn (valsOf sn)
          pattern regex caseSensitive searchColumnName ignorePatterns headerRowIndices).hardStop) = true by
              rw [← hoeq]; exact he)]
          left
          exact hoeq
        · rw [if_neg he, if_neg (show ¬ ((search_in_sheet perRec noStop (k + 1) rxCompile ssId ssName sn (valsOf sn)
          pattern regex caseSensitive searchColumnName ignorePatterns headerRowIndices).err || (search_in_sheet perRec noStop (k + 1) rxCompile ssId ssName sn (valsOf sn)
          pattern regex caseSensitive searchColumnName ignorePatterns headerRowIndices).hardStop) = true by
              rw [← hoeq]; exact he), ← hoeq]
          rcases ih ((search_in_sheet perRec flag (k + 1) rxCompile ssId ssName sn (valsOf sn)
          pattern regex caseSensitive searchColumnName ignorePatterns headerRowIndices).k) with hreq | ⟨hrr, hrc, hrk, hrfl⟩
          · left
            rw [hreq]
          · right
            refine ⟨prefix_append_left _ hrr, cprefix_append_left _ hrc, ?_, hrfl⟩
            exact le_trans (le_trans (search_in_sheet_k_le flag perRec (k + 1)
              rxCompile ssId ssName sn (valsOf sn) pattern regex caseSensitive
              searchColumnName ignorePatterns headerRowIndices) (Nat.le_succ _)) hrk
      · by_cases he : ((search_in_sheet perRec flag (k + 1) rxCompile ssId ssName sn (valsOf sn)
          pattern regex caseSensitive searchColumnName ignorePatterns headerRowIndices).err || (search_in_sheet perRec flag (k + 1) rxCompile ssId ssName sn (valsOf sn)
          pattern regex caseSensitive searchColumnName ignorePatterns headerRowIndices).hardStop) = true
        · rw [if_pos he]
          by_cases he2 : ((search_in_sheet perRec noStop (k + 1) rxCompile ssId ssName sn (valsOf sn)
          pattern regex caseSensitive searchColumnName ignorePatterns headerRowIndices).err || (search_in_sheet perRec noStop (k + 1) rxCompile ssId ssName sn (valsOf sn)
          pattern regex caseSensitive searchColumnName ignorePatterns headerRowIndices).hardStop) = true
          · rw [if_pos he2]
            right
            exact ⟨hor, hoc, le_trans (Nat.le_succ _) hok, hofl⟩
          · rw [if_neg he2]
            right
            exact ⟨prefix_append_right _ hor, cprefix_append_right _ hoc,
              le_trans (Nat.le_succ _) hok, hofl⟩
        · rw [if_neg he]
          have hfk : flag ((search_in_sheet perRec flag (k + 1) rxCompile ssId ssName sn (valsOf sn)
          pattern regex caseSensitive searchColumnName ignorePatterns headerRowIndices).k) = true := hm _ _ (Nat.sub_le _ 1) hofl
          obtain ⟨hdr, hdc, _, _, hdk1, _⟩ := sheetsLoop_dead perRec flag
            ((search_in_sheet perRec flag (k + 1) rxCompile ssId ssName sn (valsOf sn)
          pattern regex caseSensitive searchColumnName ignorePatterns headerRowIndices).k) rxCompile ssId ssName valsOf pattern regex caseSensitive
            searchColumnName ignorePatterns headerRowIndices rest hfk
          by_cases he2 : ((search_in_sheet perRec noStop (k + 1) rxCompile ssId ssName sn (valsOf sn)
          pattern regex caseSensitive searchColumnName ignorePatterns headerRowIndices).err || (search_in_sheet perRec noStop (k + 1) rxCompile ssId ssName sn (valsOf sn)
          pattern regex caseSensitive searchColumnName ignorePatterns headerRowIndices).hardStop) = true
          · rw [if_pos he2]
            right
            refine ⟨?_, ?_, ?_, ?_⟩
            · rw [hdr, List.append_nil]
              exact hor
            · rw [hdc, List.append_nil]
              exact hoc
            · exact le_trans (le_trans (Nat.le_succ _) hok) hdk1
            · exact hm _ _ (Nat.sub_le_sub_right hdk1 1) hofl
          · rw [if_neg he2]
            right
            refine ⟨?_, ?_, ?_, ?_⟩
            · rw [hdr, List.append_nil]
              exact prefix_append_right _ hor
            · rw [hdc, List.append_nil]
              exact cprefix_append_right _ hoc
            · exact le_trans (le_trans (Nat.le_succ _) hok) hdk1
            · exact hm _ _ (Nat.sub_le_sub_right hdk1 1) hofl

theorem cprefix_cons₂ {a : ApiCall} {l₁ l₂ : List ApiCall} (h : l₁ <+: l₂) :
    a :: l₁ <+: a :: l₂ := by
  obtain ⟨t, ht⟩ := h
  exact ⟨t, by simp [← ht]⟩

theorem search_in_spreadsheet_stop (perRec : Bool) (flag : Nat → Bool) (k : Nat)
    (rxCompile : Str → Bool → Except Unit (Str → Bool)) (ssId : Str)
    (metaOf : Str → Str × List Str) (valsOf : Str → Str → List (List PyVal))
    (pattern : Str) (regex caseSensitive : Bool) (searchColumnName : Option Str)
    (ignorePatterns : List Str) (headerRowIndices : Option (List Nat))
    (hf : flag k = true) :
    search_in_spreadsheet perRec flag k rxCompile ssId metaOf valsOf pattern regex
        caseSensitive searchColumnName ignorePatterns headerRowIndices
      = ⟨[], k + 1, [], false, false⟩ := by
  unfold search_in_spreadsheet
  rw [if_pos hf]

theorem search_in_spreadsheet_k_le (perRec : Bool) (flag : Nat → Bool) (k : Nat)
    (rxCompile : Str → Bool → Except Unit (Str → Bool)) (ssId : Str)
    (metaOf : Str → Str × List Str) (valsOf : Str → Str → List (List PyVal))
    (pattern : Str) (regex caseSensitive : Bool) (searchColumnName : Option Str)
    (ignorePatterns : List Str) (headerRowIndices : Option (List Nat)) :
    k ≤ (search_in_spreadsheet perRec flag k rxCompile ssId metaOf valsOf pattern regex
      caseSensitive searchColumnName ignorePatterns headerRowIndices).k := by
  by_cases hf : flag k = true
  · rw [search_in_spreadsheet_stop perRec flag k rxCompile ssId metaOf valsOf pattern
      regex caseSensitive searchColumnName ignorePatterns headerRowIndices hf]
    show k ≤ k + 1
    omega
  · unfold search_in_spreadsheet
    rw [if_neg hf]
    simp only []
    exact le_trans (Nat.le_succ k) (sheetsLoop_k_le perRec flag rxCompile ssId
      (metaOf ssId).1 (valsOf ssId) pattern regex caseSensitive searchColumnName
      ignorePatterns headerRowIndices (metaOf ssId).2 (k + 1))

theorem search_in_spreadsheet_inv (flag : Nat → Bool)
    (hm : ∀ i j, i ≤ j → flag i = true → flag j = true) (perRec : Bool) (k : Nat)
    (rxCompile : Str → Bool → Except Unit (Str → Bool)) (ssId : Str)
    (metaOf : Str → Str × List Str) (valsOf : Str → Str → List (List PyVal))
    (pattern : Str) (regex caseSensitive : Bool) (searchColumnName : Option Str)
    (ignorePatterns : List Str) (headerRowIndices : Option (List Nat)) :
    search_in_spreadsheet perRec flag k rxCompile ssId metaOf valsOf pattern regex
        caseSensitive searchColumnName ignorePatterns headerRowIndices
      = search_in_spreadsheet perRec noStop k rxCompile ssId metaOf valsOf pattern regex
        caseSensitive searchColumnName ignorePatterns headerRowIndices ∨
    ((search_in_spreadsheet perRec flag k rxCompile ssId metaOf valsOf pattern regex
        caseSensitive searchColumnName ignorePatterns headerRowIndices).recs <+:
      (search_in_spreadsheet perRec noStop k rxCompile ssId metaOf valsOf pattern regex
        caseSensitive searchColumnName ignorePatterns headerRowIndices).recs ∧
      (search_in_spreadsheet perRec flag k rxCompile ssId metaOf valsOf pattern regex
        caseSensitive searchColumnName ignorePatterns headerRowIndices).calls <+:
      (search_in_spreadsheet perRec noStop k rxCompile ssId metaOf valsOf pattern regex
        caseSensitive searchColumnName ignorePatterns headerRowIndices).calls ∧
      k + 1 ≤ (search_in_spreadsheet perRec flag k rxCompile ssId metaOf valsOf pattern
        regex caseSensitive searchColumnName ignorePatterns headerRowIndices).k ∧
      flag ((search_in_spreadsheet perRec flag k rxCompile ssId metaOf valsOf pattern
        regex caseSensitive searchColumnName ignorePatterns headerRowIndices).k - 1)
        = true) := by
  by_cases hf : flag k = true
  · right
    unfold search_in_spreadsheet
    rw [if_pos hf, if_neg (show ¬ noStop k = true by simp [noStop])]
    refine ⟨prefix_nil_any _, cprefix_nil_any _, le_refl _, ?_⟩
    show flag (k + 1 - 1) = true
    simpa using hf
  · unfold search_in_spreadsheet
    rw [if_neg hf, if_neg (show ¬ noStop k = true by simp [noStop])]
    simp only []
    rcases sheetsLoop_inv flag hm perRec rxCompile ssId (metaOf ssId).1 (valsOf ssId)
        pattern regex caseSensitive searchColumnName ignorePatterns headerRowIndices
        (metaOf ssId).2 (k + 1) with heq | ⟨hor, hoc, hok, hofl⟩
    · left
      rw [heq]
    · right
      exact ⟨hor, cprefix_cons₂ hoc, le_trans (Nat.le_succ _) hok, hofl⟩

theorem ssLoop_cons (flag : Nat → Bool) (k : Nat)
    (rxCompile : Str → Bool → Except Unit (Str → Bool))
    (metaOf : Str → Str × List Str) (valsOf : Str → Str → List (List PyVal))
    (pattern : Str) (regex caseSensitive : Bool) (searchColumnName : Option Str)
    (ignorePatterns : List Str) (headerRowIndices : Option (List Nat))
    (sid : Str) (rest : List Str) :
    ssLoop flag k rxCompile metaOf valsOf pattern regex caseSensitive searchColumnName
        ignorePatterns headerRowIndices (sid :: rest) =
      if flag k then ([], k + 1, [])
      else
        if (search_in_spreadsheet true flag (k + 1) rxCompile sid metaOf valsOf pattern
          regex caseSensitive searchColumnName ignorePatterns headerRowIndices).hardStop
        then ((search_in_spreadsheet true flag (k + 1) rxCompile sid metaOf valsOf pattern
          regex caseSensitive searchColumnName ignorePatterns headerRowIndices).recs, (search_in_spreadsheet true flag (k + 1) rxCompile sid metaOf valsOf pattern
          regex caseSensitive searchColumnName ignorePatterns headerRowIndices).k, (search_in_spreadsheet true flag (k + 1) rxCompile sid metaOf valsOf pattern
          regex caseSensitive searchColumnName ignorePatterns headerRowIndices).calls)
        else
          ((search_in_spreadsheet true flag (k + 1) rxCompile sid metaOf valsOf pattern
          regex caseSensitive searchColumnName ignorePatterns headerRowIndices).recs ++
              (ssLoop flag (search_in_spreadsheet true flag (k + 1) rxCompile sid metaOf valsOf pattern
          regex caseSensitive searchColumnName ignorePatterns headerRowIndices).k rxCompile metaOf valsOf pattern regex caseSensitive
                searchColumnName ignorePatterns headerRowIndices rest).1,
            (ssLoop flag (search_in_spreadsheet true flag (k + 1) rxCompile sid metaOf valsOf pattern
          regex caseSensitive searchColumnName ignorePatterns headerRowIndices).k rxCompile metaOf valsOf pattern regex caseSensitive
              searchColumnName ignorePatterns headerRowIndices rest).2.1,
            (search_in_spreadsheet true flag (k + 1) rxCompile sid metaOf valsOf pattern
          regex caseSensitive searchColumnName ignorePatterns headerRowIndices).calls ++
              (ssLoop flag (search_in_spreadsheet true flag (k + 1) rxCompile sid metaOf valsOf pattern
          regex caseSensitive searchColumnName ignorePatterns headerRowIndices).k rxCompile metaOf valsOf pattern regex caseSensitive
                searchColumnName ignorePatterns headerRowIndices rest).2.2) := rfl

theorem ssLoop_dead (flag : Nat → Bool) (k : Nat)
    (rxCompile : Str → Bool → Except Unit (Str → Bool))
    (metaOf : Str → Str × List Str) (valsOf : Str → Str → List (List PyVal))
    (pattern : Str) (regex caseSensitive : Bool) (searchColumnName : Option Str)
    (ignorePatterns : List Str) (headerRowIndices : Option (List Nat))
    (ss : List Str) (hf : flag k = true) :
    (ssLoop flag k rxCompile metaOf valsOf pattern regex caseSensitive searchColumnName
        ignorePatterns headerRowIndices ss).1 = [] ∧
    (ssLoop flag k rxCompile metaOf valsOf pattern regex caseSensitive searchColumnName
        ignorePatterns headerRowIndices ss).2.2 = [] ∧
    k ≤ (ssLoop flag k rxCompile metaOf valsOf pattern regex caseSensitive
        searchColumnName ignorePatterns headerRowIndices ss).2.1 ∧
    (ssLoop flag k rxCompile metaOf valsOf pattern regex caseSensitive searchColumnName
        ignorePatterns headerRowIndices ss).2.1 ≤ k + 1 := by
  cases ss with
  | nil => exact ⟨rfl, rfl, le_refl _, Nat.le_succ _⟩
  | cons sid rest =>
    rw [ssLoop_cons, if_pos hf]
    exact ⟨rfl, rfl, Nat.le_succ _, le_refl _⟩

theorem ssLoop_k_le (flag : Nat → Bool)
    (rxCompile : Str → Bool → Except Unit (Str → Bool))
    (metaOf : Str → Str × List Str) (valsOf : Str → Str → List (List PyVal))
    (pattern : Str) (regex caseSensitive : Bool) (searchColumnName : Option Str)
    (ignorePatterns : List Str) (headerRowIndices : Option (List Nat))
    (ss : List Str) :
    ∀ k, k ≤ (ssLoop flag k rxCompile metaOf valsOf pattern regex caseSensitive
      searchColumnName ignorePatterns headerRowIndices ss).2.1 := by
  induction ss with
  | nil => intro k; exact le_refl _
  | cons sid rest ih =>
    intro k
    by_cases hf : flag k = true
    · rw [ssLoop_cons, if_pos hf]
      show k ≤ k + 1
      omega
    · rw [ssLoop_cons, if_neg hf]
      by_cases he : (search_in_spreadsheet true flag (k + 1) rxCompile sid metaOf valsOf pattern
          regex caseSensitive searchColumnName ignorePatterns headerRowIndices).hardStop = true
      · rw [if_pos he]
        exact le_trans (Nat.le_succ k) (search_in_spreadsheet_k_le true flag (k + 1)
          rxCompile sid metaOf valsOf pattern regex caseSensitive searchColumnName
          ignorePatterns headerRowIndices)
      · rw [if_neg he]
        exact le_trans (le_trans (Nat.le_succ k) (search_in_spreadsheet_k_le true flag
          (k + 1) rxCompile sid metaOf valsOf pattern regex caseSensitive
          searchColumnName ignorePatterns headerRowIndices)) (ih _)

theorem ssLoop_inv (flag : Nat → Bool)
    (hm : ∀ i j, i ≤ j → flag i = true → flag j = true)
    (rxCompile : Str → Bool → Except Unit (Str → Bool))
    (metaOf : Str → Str × List Str) (valsOf : Str → Str → List (List PyVal))
    (pattern : Str) (regex caseSensitive : Bool) (searchColumnName : Option Str)
    (ignorePatterns : List Str) (headerRowIndices : Option (List Nat))
    (ss : List Str) :
    ∀ k,
      ssLoop flag k rxCompile metaOf valsOf pattern regex caseSensitive
          searchColumnName ignorePatterns headerRowIndices ss
        = ssLoop noStop k rxCompile metaOf valsOf pattern regex caseSensitive
          searchColumnName ignorePatterns headerRowIndices ss ∨
      ((ssLoop flag k rxCompile metaOf valsOf pattern regex caseSensitive
          searchColumnName ignorePatterns headerRowIndices ss).1 <+:
        (ssLoop noStop k rxCompile metaOf valsOf pattern regex caseSensitive
          searchColumnName ignorePatterns headerRowIndices ss).1 ∧
        (ssLoop flag k rxCompile metaOf valsOf pattern regex caseSensitive
          searchColumnName ignorePatterns headerRowIndices ss).2.2 <+:
        (ssLoop noStop k rxCompile metaOf valsOf pattern regex caseSensitive
          searchColumnName ignorePatterns headerRowIndices ss).2.2 ∧
        k + 1 ≤ (ssLoop flag k rxCompile metaOf valsOf pattern regex caseSensitive
          searchColumnName ignorePatterns headerRowIndices ss).2.1 ∧
        flag ((ssLoop flag k rxCompile metaOf valsOf pattern regex caseSensitive
          searchColumnName ignorePatterns headerRowIndices ss).2.1 - 1) = true) := by
  induction ss with
  | nil => intro k; left; rfl
  | cons sid rest ih =>
    intro k
    by_cases hf : flag k = true
    · right
      rw [ssLoop_cons flag k rxCompile metaOf valsOf pattern regex caseSensitive
        searchColumnName ignorePatterns headerRowIndices sid rest, if_pos hf]
      refine ⟨prefix_nil_any _, cprefix_nil_any _, le_refl _, ?_⟩
      show flag (k + 1 - 1) = true
      simpa using hf
    · rw [ssLoop_cons flag k rxCompile metaOf valsOf pattern regex caseSensitive
          searchColumnName ignorePatterns headerRowIndices sid rest, if_neg hf,
        ssLoop_cons noStop k rxCompile metaOf valsOf pattern regex caseSensitive
          searchColumnName ignorePatterns headerRowIndices sid rest,
        if_neg (show ¬ noStop k = true by simp [noStop])]
      rcases search_in_spreadsheet_inv flag hm true (k + 1) rxCompile sid metaOf valsOf
          pattern regex caseSensitive searchColumnName ignorePatterns headerRowIndices
        with hoeq | ⟨hor, hoc, hok, hofl⟩
      · by_cases he : (search_in_spreadsheet true flag (k + 1) rxCompile sid metaOf valsOf pattern
          regex caseSensitive searchColumnName ignorePatterns headerRowIndices).hardStop = true
        · rw [if_pos he, if_pos (show (search_in_spreadsheet true noStop (k + 1) rxCompile sid metaOf valsOf pattern
          regex caseSensitive searchColumnName ignorePatterns headerRowIndices).hardStop = true by rw [← hoeq]; exact he)]
          left
          rw [hoeq]
        · rw [if_neg he, if_neg (show ¬ (search_in_spreadsheet true noStop (k + 1) rxCompile sid metaOf valsOf pattern
          regex caseSensitive searchColumnName ignorePatterns headerRowIndices).hardStop = true by rw [← hoeq]; exact he),
            ← hoeq]
          rcases ih ((search_in_spreadsheet true flag (k + 1) rxCompile sid metaOf valsOf pattern
          regex caseSensitive searchColumnName ignorePatterns headerRowIndices).k) with hreq | ⟨hrr, hrc, hrk, hrfl⟩
          · left
            rw [hreq]
          · right
            refine ⟨prefix_append_left _ hrr, cprefix_append_left _ hrc, ?_, hrfl⟩
            exact le_trans (le_trans (search_in_spreadsheet_k_le true flag (k + 1)
              rxCompile sid metaOf valsOf pattern regex caseSensitive searchColumnName
              ignorePatterns headerRowIndices) (Nat.le_succ _)) hrk
      · by_cases he : (search_in_spreadsheet true flag (k + 1) rxCompile sid metaOf valsOf pattern
          regex caseSensitive searchColumnName ignorePatterns headerRowIndices).hardStop = true
        · rw [if_pos he]
          by_cases he2 : (search_in_spreadsheet true noStop (k + 1) rxCompile sid metaOf valsOf pattern
          regex caseSensitive searchColumnName ignorePatterns headerRowIndices).hardStop = true
          · rw [if_pos he2]
            right
            exact ⟨hor, hoc, le_trans (Nat.le_succ _) hok, hofl⟩
          · rw [if_neg he2]
            right
            exact ⟨prefix_append_right _ hor, cprefix_append_right _ hoc,
              le_trans (Nat.le_succ _) hok, hofl⟩
        · rw [if_neg he]
          have hfk : flag ((search_in_spreadsheet true flag (k + 1) rxCompile sid metaOf valsOf pattern
          regex caseSensitive searchColumnName ignorePatterns headerRowIndices).k) = true := hm _ _ (Nat.sub_le _ 1) hofl
          obtain ⟨hdr, hdc, hdk1, _⟩ := ssLoop_dead flag ((search_in_spreadsheet true flag (k + 1) rxCompile sid metaOf valsOf pattern
          regex caseSensitive searchColumnName ignorePatterns headerRowIndices).k) rxCompile metaOf
            valsOf pattern regex caseSensitive searchColumnName ignorePatterns
            headerRowIndices rest hfk
          by_cases he2 : (search_in_spreadsheet true noStop (k + 1) rxCompile sid metaOf valsOf pattern
          regex caseSensitive searchColumnName ignorePatterns headerRowIndices).hardStop = true
          · rw [if_pos he2]
            right
            refine ⟨?_, ?_, ?_, ?_⟩
            · rw [hdr, List.append_nil]
              exact hor
            · rw [hdc, List.append_nil]
              exact hoc
            · exact le_trans (le_trans (Nat.le_succ _) hok) hdk1
            · exact hm _ _ (Nat.sub_le_sub_right hdk1 1) hofl
          · rw [if_neg he2]
            right
            refine ⟨?_, ?_, ?_, ?_⟩
            · rw [hdr, List.append_nil]
              exact prefix_append_right _ hor
            · rw [hdc, List.append_nil]
              exact cprefix_append_right _ hoc
            · exact le_trans (le_trans (Nat.le_succ _) hok) hdk1
            · exact hm _ _ (Nat.sub_le_sub_right hdk1 1) hofl

/-- C6 (amended).  Cancellation under a monotone (once set, stays set)
flag: the cancelled run of `search_across_spreadsheets` yields a prefix —
not in general a strict prefix — of the records of the uncancelled run,
and issues a prefix of the uncancelled run's collaborator calls, so no
further record is yielded and no further call is issued once the flag is
observed; the flag is checked before each spreadsheet (a flag set at a
spreadsheet boundary stops the spreadsheet loop with no further call),
before each sheet (likewise for the sheet loop), and exactly once per
data row in the row loop (the uncancelled row loop performs one check
per row). -/
theorem cancellation_prefix (flag : Nat → Bool)
    (hm : ∀ i j, i ≤ j → flag i = true → flag j = true)
    (rxCompile : Str → Bool → Except Unit (Str → Bool))
    (metaOf : Str → Str × List Str) (valsOf : Str → Str → List (List PyVal))
    (pattern : Str) (regex caseSensitive : Bool) (searchColumnName : Option Str)
    (ignorePatterns : List Str) (headerRowIndices : Option (List Nat))
    (ssIds : List Str) (k : Nat) (sid : Str) (sidRest : List Str)
    (perRec : Bool) (ssId ssName sn : Str) (snRest : List Str)
    (valsOf2 : Str → List (List PyVal)) (k2 k3 k0 rIdx : Nat)
    (f : Nat → List PyVal → List MatchRec) (rows : List (List PyVal)) :
    ((search_across_spreadsheets flag k rxCompile metaOf valsOf pattern regex
        caseSensitive searchColumnName ignorePatterns headerRowIndices ssIds).1 <+:
      (search_across_spreadsheets noStop k rxCompile metaOf valsOf pattern regex
        caseSensitive searchColumnName ignorePatterns headerRowIndices ssIds).1) ∧
    ((search_across_spreadsheets flag k rxCompile metaOf valsOf pattern regex
        caseSensitive searchColumnName ignorePatterns headerRowIndices ssIds).2.2 <+:
      (search_across_spreadsheets noStop k rxCompile metaOf valsOf pattern regex
        caseSensitive searchColumnName ignorePatterns headerRowIndices ssIds).2.2) ∧
    (flag k2 = true →
      ssLoop flag k2 rxCompile metaOf valsOf pattern regex caseSensitive
        searchColumnName ignorePatterns headerRowIndices (sid :: sidRest)
        = ([], k2 + 1, [])) ∧
    (flag k3 = true →
      sheetsLoop perRec flag k3 rxCompile ssId ssName valsOf2 pattern regex
        caseSensitive searchColumnName ignorePatterns headerRowIndices (sn :: snRest)
        = ⟨[], k3 + 1, [], false, false⟩) ∧
    (scanRows false noStop k0 f rIdx rows).2.1 = k0 + rows.length := by
  have hacross :
      ((search_across_spreadsheets flag k rxCompile metaOf valsOf pattern regex
          caseSensitive searchColumnName ignorePatterns headerRowIndices ssIds).1 <+:
        (search_across_spreadsheets noStop k rxCompile metaOf valsOf pattern regex
          caseSensitive searchColumnName ignorePatterns headerRowIndices ssIds).1) ∧
      ((search_across_spreadsheets flag k rxCompile metaOf valsOf pattern regex
          caseSensitive searchColumnName ignorePatterns headerRowIndices ssIds).2.2 <+:
        (search_across_spreadsheets noStop k rxCompile metaOf valsOf pattern regex
          caseSensitive searchColumnName ignorePatterns headerRowIndices ssIds).2.2) := by
    unfold search_across_spreadsheets
    by_cases hf : flag k = true
    · rw [if_pos hf, if_neg (show ¬ noStop k = true by simp [noStop])]
      exact ⟨prefix_nil_any _, cprefix_nil_any _⟩
    · rw [if_neg hf, if_neg (show ¬ noStop k = true by simp [noStop])]
      rcases ssLoop_inv flag hm rxCompile metaOf valsOf pattern regex caseSensitive
          searchColumnName ignorePatterns headerRowIndices ssIds (k + 1)
        with heq | ⟨h1, h2, _, _⟩
      · rw [heq]
        exact ⟨List.prefix_rfl, List.prefix_rfl⟩
      · exact ⟨h1, h2⟩
  refine ⟨hacross.1, hacross.2, ?_, ?_, scanRows_false_noStop_k f rows k0 rIdx⟩
  · intro hf2
    rw [ssLoop_cons flag k2 rxCompile metaOf valsOf pattern regex caseSensitive
      searchColumnName ignorePatterns headerRowIndices sid sidRest, if_pos hf2]
  · intro hf3
    rw [sheetsLoop_cons perRec flag k3 rxCompile ssId ssName valsOf2 pattern regex
      caseSensitive searchColumnName ignorePatterns headerRowIndices sn snRest,
      if_pos hf3]

theorem cancellation_prefix_witness :
    ((search_across_spreadsheets stopAt2 0 rxOk (fun _ => ("SS".data, ["A1".data]))
        (fun _ _ => [[PyVal.pstr "Zlecenie".data], [PyVal.pstr "38960".data]])
        "38960".data false false none [] none ["id1".data]).1 <+:
      (search_across_spreadsheets noStop 0 rxOk (fun _ => ("SS".data, ["A1".data]))
        (fun _ _ => [[PyVal.pstr "Zlecenie".data], [PyVal.pstr "38960".data]])
        "38960".data false false none [] none ["id1".data]).1) ∧
    ((search_across_spreadsheets stopAt2 0 rxOk (fun _ => ("SS".data, ["A1".data]))
        (fun _ _ => [[PyVal.pstr "Zlecenie".data], [PyVal.pstr "38960".data]])
        "38960".data false false none [] none ["id1".data]).2.2 <+:
      (search_across_spreadsheets noStop 0 rxOk (fun _ => ("SS".data, ["A1".data]))
        (fun _ _ => [[PyVal.pstr "Zlecenie".data], [PyVal.pstr "38960".data]])
        "38960".data false false none [] none ["id1".data]).2.2) ∧
    (stopAt2 2 = true →
      ssLoop stopAt2 2 rxOk (fun _ => ("SS".data, ["A1".data]))
        (fun _ _ => [[PyVal.pstr "Zlecenie".data], [PyVal.pstr "38960".data]])
        "38960".data false false none [] none ("id1".data :: [])
        = ([], 2 + 1, [])) ∧
    (stopAt2 2 = true →
      sheetsLoop true stopAt2 2 rxOk "id1".data "SS".data (fun _ => [])
        "38960".data false false none [] none ("A1".data :: [])
        = ⟨[], 2 + 1, [], false, false⟩) ∧
    (scanRows false noStop 0 (fun _ _ => []) 1 [[]]).2.1
      = 0 + ([[]] : List (List PyVal)).length :=
  cancellation_prefix stopAt2
    (fun _ _ hij hi => decide_eq_true (Nat.le_trans (of_decide_eq_true hi) hij))
    rxOk (fun _ => ("SS".data, ["A1".data]))
        (fun _ _ => [[PyVal.pstr "Zlecenie".data], [PyVal.pstr "38960".data]])
        "38960".data false false none [] none ["id1".data] 0 "id1".data [] true "id1".data "SS".data
    "A1".data [] (fun _ => []) 2 2 0 1 (fun _ _ => []) [[]]
